import Mathlib

/-!
# lua-sqlite: the marshalling layer of `src/lsqlite.c`

A shallow embedding of the Lua 5.1 / SQLite binding in `src/lsqlite.c`.

* A call of a `lua_CFunction` is a function on `LuaState`: the Lua stack of the
  call (a list whose head is the top of the stack), the heap of Lua tables, and
  the chronological trace of the calls made into the SQLite engine.
* The SQLite engine is external to the repository.  Its answers are taken from
  an `Engine` record of functions (statements and result tables) and a
  `Sessions` record (connections), so every theorem that quantifies over them
  holds for every behaviour of the engine.
* The parts of the Lua runtime fixed by `luaconf.h` (number formatting, number
  parsing, number to integer conversion, the border reported for a table) are
  taken from a `Runtime` record in the same way.

Boundaries of the model.

* Tables carry no metatables.
* A C function may push `LUA_MINSTACK` values above its arguments, and the
  sources never call `lua_checkstack`.  The two loops that push once per element,
  the loop of `columns` and the array loop of `bind_table`, are run against that
  frame: a push beyond it ends the call as `Outcome.undefined`.  Every other
  function pushes a bounded number of values, well within the frame.
* A `lua_Number` is a finite value, given by the rational it denotes, an infinity
  or a NaN.  Every finite `double` is such a rational, and the sources do no
  arithmetic on numbers.
* Where `bind_table` hands the bytes of a Lua string to the engine and to the
  format `%s`, and `columns` a character to the format `%c`, the C string ends at
  the first zero byte (`cstr`).  In `param_idx`, `bind_param_idx`, `get_table`
  and `open` the string reaches the engine only, and the functions of the engine
  records receive the Lua string.
* The `printf` diagnostics of the sources write to standard output only and are
  left out.
-/

namespace LSqlite

/-! ## Lua values -/

/-- A `lua_Number` (C `double`): a finite value, represented by the rational
number it denotes, an infinity, or a NaN. -/
inductive LuaNumber
  | finite (q : Rat)
  | inf (negative : Bool)
  | nan
  deriving DecidableEq

instance : NatCast LuaNumber := ⟨fun n => LuaNumber.finite (n : Rat)⟩

instance : IntCast LuaNumber := ⟨fun n => LuaNumber.finite (n : Rat)⟩

instance (n : Nat) : OfNat LuaNumber n := ⟨LuaNumber.finite (n : Rat)⟩

/-- The sign change of a `double`. -/
def LuaNumber.neg : LuaNumber → LuaNumber
  | LuaNumber.finite q => LuaNumber.finite (-q)
  | LuaNumber.inf b => LuaNumber.inf (!b)
  | LuaNumber.nan => LuaNumber.nan

instance : Neg LuaNumber := ⟨LuaNumber.neg⟩

/-- The metatable a full userdata was created with: `"LuaSQLite"` (a database),
`"LuaSQLiteStmt"` (a prepared statement), or anything else. -/
inductive UKind
  | db
  | stmt
  | other
  deriving DecidableEq

/-- A Lua value.  Tables, functions and threads are references; a userdata of the
binding holds the engine handle stored in its field `v`. -/
inductive LuaValue
  | nil
  | boolean (b : Bool)
  | number (x : LuaNumber)
  | string (s : String)
  | table (ref : Nat)
  | function (ref : Nat)
  | userdata (kind : UKind) (handle : Nat)
  | thread (ref : Nat)
  deriving DecidableEq

/-- The type tags of `lua.h` returned by `lua_type`. -/
inductive LuaType
  | TNONE
  | TNIL
  | TBOOLEAN
  | TNUMBER
  | TSTRING
  | TTABLE
  | TFUNCTION
  | TUSERDATA
  | TTHREAD
  deriving DecidableEq

/-- A Lua table: its key/value entries in the order `lua_next` traverses them. -/
abbrev LuaTable := List (LuaValue × LuaValue)

/-- Raw read `t[k]`; an absent key reads as `nil`. -/
def tableGet : LuaTable → LuaValue → LuaValue
  | [], _ => LuaValue.nil
  | (k1, v1) :: t, k => if k1 = k then v1 else tableGet t k

/-- The table without the key `k`. -/
def tableRemove : LuaTable → LuaValue → LuaTable
  | [], _ => []
  | (k1, v1) :: t, k => if k1 = k then tableRemove t k else (k1, v1) :: tableRemove t k

/-- The table with `k` mapped to `v`: in place where the key is present, as a new
entry otherwise. -/
def tableInsert : LuaTable → LuaValue → LuaValue → LuaTable
  | [], k, v => [(k, v)]
  | (k1, v1) :: t, k, v => if k1 = k then (k, v) :: t else (k1, v1) :: tableInsert t k v

/-- Raw write `t[k] = v`; writing `nil` removes the key. -/
def tableSet (t : LuaTable) (k v : LuaValue) : LuaTable :=
  if v = LuaValue.nil then tableRemove t k else tableInsert t k v

/-! ## The engine boundary -/

/-- The destructor argument of `sqlite3_bind_text`. -/
inductive Destructor
  | static
  | transient
  deriving DecidableEq

/-- The constant `SQLITE_TRANSIENT` of `sqlite3.h`. -/
def SQLITE_TRANSIENT : Destructor := Destructor.transient

/-- A call made into the SQLite engine, with its arguments. -/
inductive EngineCall
  | bind_parameter_index (stmt : Nat) (name : String)
  | bind_parameter_count (stmt : Nat)
  | bind_null (stmt : Nat) (idx : Int)
  | bind_int (stmt : Nat) (idx : Int) (v : Int)
  | bind_double (stmt : Nat) (idx : Int) (v : LuaNumber)
  | bind_text (stmt : Nat) (idx : Int) (text : String) (n : Nat) (d : Destructor)
  | column_count (stmt : Nat)
  | column_int (stmt : Nat) (col : Nat)
  | column_double (stmt : Nat) (col : Nat)
  | column_bytes (stmt : Nat) (col : Nat)
  | column_text (stmt : Nat) (col : Nat)
  | column_blob (stmt : Nat) (col : Nat)
  | get_table (db : Nat) (sql : String)
  | free_table
  | sqlite3_open (fn : String)
  | sqlite3_close (db : Nat)
  | errcode (db : Nat)
  | errmsg (db : Nat)
  deriving DecidableEq

/-- What `sqlite3_get_table` hands back: the result code, the flat array of
`(nrow + 1) * ncol` cells (`none` is a NULL pointer), the two counts and the
error message. -/
structure GetTableResult where
  res : Int
  qres : Nat → Option String
  nrow : Nat
  ncol : Nat
  err : Option String

/-- The answers of the engine during one call of the binding. -/
structure Engine where
  bind_parameter_index : Nat → String → Int
  bind_parameter_count : Nat → Int
  bind_result : EngineCall → Int
  column_count : Nat → Int
  column_int : Nat → Nat → Int
  column_double : Nat → Nat → LuaNumber
  column_bytes : Nat → Nat → Int
  column_text : Nat → Nat → Option String
  column_blob : Nat → Nat → Option String
  get_table : Nat → String → GetTableResult

/-- The answers of the engine about sessions: `sqlite3_open` (the result code and
the handle it stores), `sqlite3_close`, `sqlite3_errcode` and `sqlite3_errmsg`. -/
structure Sessions where
  open_result : String → Int × Nat
  close_result : Nat → Int
  errcode : Nat → Int
  errmsg : Nat → Option String

/-- The platform-dependent parts of the Lua runtime: `luaH_getn` (a border of the
table), `lua_str2number`, `lua_number2str` and `lua_number2integer`. -/
structure Runtime where
  objlen : LuaTable → Nat
  str2number : String → Option LuaNumber
  number2str : LuaNumber → String
  number2integer : LuaNumber → Int

/-! ## The state of a call -/

/-- The state a C function of the binding works on. -/
structure LuaState where
  stack : List LuaValue
  heap : List LuaTable
  trace : List EngineCall
  deriving DecidableEq

/-- How a C function stops short of returning: with a raised Lua error (the value
given to `lua_error`, an argument error of `luaL_check*`, a failed `lua_concat`),
or with a push beyond its frame, after which its behaviour is undefined. -/
inductive Raised
  | value (v : LuaValue)
  | argument (narg : Int) (expected : String)
  | concat
  | overrun
  deriving DecidableEq

/-- A step of a C function: it raises, or it yields a value and the next state. -/
abbrev Step (α : Type) := Except (Raised × LuaState) (α × LuaState)

/-- How a call of a C function ends for the Lua caller. -/
inductive Outcome
  | returned (results : List LuaValue) (st : LuaState)
  | raised (err : Raised) (st : LuaState)
  | undefined (st : LuaState)
  deriving DecidableEq

/-- The state in which a C function starts: its arguments, first argument at
index 1. -/
def enter (args : List LuaValue) (heap : List LuaTable) (trace : List EngineCall) : LuaState :=
  { stack := args.reverse, heap := heap, trace := trace }

/-- Record a call into the engine. -/
def engineCall (st : LuaState) (c : EngineCall) : LuaState :=
  { st with trace := st.trace ++ [c] }

/-- Conversion of an integer to C `int` (32 bits, two's complement). -/
def toCInt (n : Int) : Int := (n + 2147483648) % 4294967296 - 2147483648

/-- Conversion of a `double` to C `int`: the fractional part of a finite value is
discarded.  The conversion of a value outside the range of `int`, of an infinity
or of a NaN is undefined in C; the definition yields the truncation of the
finite value and 0 for an infinity and a NaN. -/
def doubleToInt : LuaNumber → Int
  | LuaNumber.finite q => Int.tdiv q.num q.den
  | _ => 0

/-! ## The Lua C API -/

/-- Position in `stack` of the acceptable index `i` (positive: from the bottom,
negative: from the top). -/
def slot (st : LuaState) (i : Int) : Option Nat :=
  if 0 < i ∧ i ≤ st.stack.length then some (st.stack.length - i.toNat)
  else if i < 0 ∧ -i ≤ st.stack.length then some ((-i).toNat - 1)
  else none

/-- The value at index `i`, `none` where the index is not valid. -/
def index2value (st : LuaState) (i : Int) : Option LuaValue :=
  match slot st i with
  | some p => st.stack.get? p
  | none => none

/-- Overwrite the value at index `i`. -/
def setValue (st : LuaState) (i : Int) (v : LuaValue) : LuaState :=
  match slot st i with
  | some p => { st with stack := st.stack.set p v }
  | none => st

def typeOf : LuaValue → LuaType
  | LuaValue.nil => LuaType.TNIL
  | LuaValue.boolean _ => LuaType.TBOOLEAN
  | LuaValue.number _ => LuaType.TNUMBER
  | LuaValue.string _ => LuaType.TSTRING
  | LuaValue.table _ => LuaType.TTABLE
  | LuaValue.function _ => LuaType.TFUNCTION
  | LuaValue.userdata _ _ => LuaType.TUSERDATA
  | LuaValue.thread _ => LuaType.TTHREAD

def lua_type (st : LuaState) (i : Int) : LuaType :=
  match index2value st i with
  | some v => typeOf v
  | none => LuaType.TNONE

def push (st : LuaState) (v : LuaValue) : LuaState :=
  { st with stack := v :: st.stack }

def lua_pop (st : LuaState) (n : Nat) : LuaState :=
  { st with stack := st.stack.drop n }

def lua_pushnil (st : LuaState) : LuaState := push st LuaValue.nil

/-- Pushing a C string: `lua_pushstring(L, NULL)` pushes `nil`. -/
def lua_pushstring (st : LuaState) (s : Option String) : LuaState :=
  match s with
  | some v => push st (LuaValue.string v)
  | none => push st LuaValue.nil

/-- The C string found at a pointer to the bytes `s`: the bytes before the first
zero byte.  The formats `%s` and `%c` of `lua_pushfstring` and the engine read
their argument this way. -/
def cstr (s : String) : String :=
  String.mk (s.data.takeWhile (fun c => c ≠ Char.ofNat 0))

/-- The call `lua_pushfstring` with the formatted message; it makes room on the
stack itself. -/
def lua_pushfstring (st : LuaState) (msg : String) : LuaState :=
  push st (LuaValue.string msg)

/-- The constant `LUA_MINSTACK` of `lua.h`: the stack slots Lua guarantees a C
function above its arguments. -/
def LUA_MINSTACK : Nat := 20

/-- The height up to which the frame of a C function entered in the state `st`
reaches. -/
def frameLimit (st : LuaState) : Nat := st.stack.length + LUA_MINSTACK

/-- The sources never call `lua_checkstack`: a push that leaves the stack higher
than the frame of the function reaches writes outside the frame.  Only the two
loops that push once per element (the array loop of `bind_table` and the loop of
`columns`) can get there; every other function pushes a bounded number of
values, well within the frame. -/
def withinFrame (limit : Nat) (st : LuaState) : Except (Raised × LuaState) LuaState :=
  if st.stack.length ≤ limit then Except.ok st else Except.error (Raised.overrun, st)

/-- The `n` bytes found at pointer `p` (`none` is NULL, where nothing is read). -/
def readBytes (p : Option String) (n : Nat) : String :=
  match p with
  | some s => String.mk (s.data.take n)
  | none => ""

def lua_pushlstring (st : LuaState) (p : Option String) (n : Nat) : LuaState :=
  push st (LuaValue.string (readBytes p n))

def lua_pushinteger (st : LuaState) (n : Int) : LuaState :=
  push st (LuaValue.number (n : LuaNumber))

def lua_pushnumber (st : LuaState) (x : LuaNumber) : LuaState :=
  push st (LuaValue.number x)

def lua_pushvalue (st : LuaState) (i : Int) : LuaState :=
  push st ((index2value st i).getD LuaValue.nil)

/-- The call `lua_insert(L, i)` for a negative index `i`: the top value moves to
index `i`, the values above that position shift up. -/
def lua_insert (st : LuaState) (i : Int) : LuaState :=
  match st.stack with
  | a :: rest =>
    { st with stack := rest.take ((-i).toNat - 1) ++ a :: rest.drop ((-i).toNat - 1) }
  | [] => st

def lua_createtable (st : LuaState) : LuaState :=
  { st with stack := LuaValue.table st.heap.length :: st.stack, heap := st.heap ++ [[]] }

/-- The entries of the table at index `i` (no entries where it is not a table). -/
def tableAt (st : LuaState) (i : Int) : LuaTable :=
  match index2value st i with
  | some (LuaValue.table r) => st.heap.getD r []
  | _ => []

/-- The call `lua_settable(L, i)`: `t[k] = v` for the table `t` at index `i`, the
key `k` at index -2 and the value `v` on top; both are popped.  The sources only
apply it to tables. -/
def lua_settable (st : LuaState) (i : Int) : LuaState :=
  match st.stack, index2value st i with
  | v :: k :: rest, some (LuaValue.table r) =>
    { st with stack := rest, heap := st.heap.set r (tableSet (st.heap.getD r []) k v) }
  | _, _ => lua_pop st 2

/-- The call `lua_gettable(L, i)`: the key on top is replaced by `t[k]` for the
table `t` at index `i`.  The sources only apply it to tables. -/
def lua_gettable (st : LuaState) (i : Int) : LuaState :=
  match st.stack with
  | k :: rest => { st with stack := tableGet (tableAt st i) k :: rest }
  | [] => st

def lua_objlen (rt : Runtime) (st : LuaState) (i : Int) : Nat :=
  match index2value st i with
  | some (LuaValue.table r) => rt.objlen (st.heap.getD r [])
  | some (LuaValue.string s) => s.length
  | _ => 0

/-- The conversion `lua_tonumber` applies: numbers and strings that parse as
numbers convert, everything else yields 0. -/
def tonumber (rt : Runtime) : LuaValue → Option LuaNumber
  | LuaValue.number x => some x
  | LuaValue.string s => rt.str2number s
  | _ => none

def lua_isnumber (rt : Runtime) (st : LuaState) (i : Int) : Bool :=
  match index2value st i with
  | some v => (tonumber rt v).isSome
  | none => false

def lua_tonumber (rt : Runtime) (st : LuaState) (i : Int) : LuaNumber :=
  match index2value st i with
  | some v => (tonumber rt v).getD 0
  | none => 0

/-- The conversion `lua_tointeger` applies: what converts to a number is
converted on to an integer, everything else yields 0. -/
def tointeger (rt : Runtime) (v : LuaValue) : Int :=
  match tonumber rt v with
  | some x => rt.number2integer x
  | none => 0

def lua_tointeger (rt : Runtime) (st : LuaState) (i : Int) : Int :=
  match index2value st i with
  | some v => tointeger rt v
  | none => 0

/-- The string `lua_tostring` returns: a string as it is, a number formatted,
`none` (NULL) for every other value. -/
def tostring (rt : Runtime) : LuaValue → Option String
  | LuaValue.string s => some s
  | LuaValue.number x => some (rt.number2str x)
  | _ => none

def lua_tostring (rt : Runtime) (st : LuaState) (i : Int) : Option String :=
  match index2value st i with
  | some v => tostring rt v
  | none => none

/-- The call `lua_concat(L, 2)`: the two values on top are replaced by their
concatenation; an operand that is neither a string nor a number raises. -/
def lua_concat2 (rt : Runtime) (st : LuaState) : Except (Raised × LuaState) LuaState :=
  match st.stack with
  | b :: a :: rest =>
    match tostring rt a, tostring rt b with
    | some x, some y => Except.ok { st with stack := LuaValue.string (x ++ y) :: rest }
    | _, _ => Except.error (Raised.concat, st)
  | _ => Except.error (Raised.concat, st)

/-- The call `lua_error(L)`: raises the value on top of the stack. -/
def lua_error {α : Type} (st : LuaState) : Except (Raised × LuaState) α :=
  Except.error (Raised.value (st.stack.headD LuaValue.nil), st)

/-- The check `luaL_checklstring(L, i, &len)`: a string is returned, a number is
converted in place, any other value raises an argument error. -/
def luaL_checklstring (rt : Runtime) (st : LuaState) (i : Int) : Step String :=
  match index2value st i with
  | some (LuaValue.string s) => Except.ok (s, st)
  | some (LuaValue.number x) =>
    Except.ok (rt.number2str x, setValue st i (LuaValue.string (rt.number2str x)))
  | _ => Except.error (Raised.argument i "string", st)

def luaL_checknumber (rt : Runtime) (st : LuaState) (i : Int) : Step LuaNumber :=
  match index2value st i with
  | some v =>
    match tonumber rt v with
    | some x => Except.ok (x, st)
    | none => Except.error (Raised.argument i "number", st)
  | none => Except.error (Raised.argument i "number", st)

def luaL_checkinteger (rt : Runtime) (st : LuaState) (i : Int) : Step Int :=
  match index2value st i with
  | some v =>
    match tonumber rt v with
    | some x => Except.ok (rt.number2integer x, st)
    | none => Except.error (Raised.argument i "number", st)
  | none => Except.error (Raised.argument i "number", st)

/-- Modelled from the spec: the macro `LERROR` of `luawrap.h` (not among the
sources) raises a Lua error carrying the given message. -/
def LERROR {α : Type} (st : LuaState) (msg : Option String) : Except (Raised × LuaState) α :=
  lua_error (lua_pushstring st msg)

/-- Modelled from the spec: the macro `check_stmt` of `lsqlite.h` (not among the
sources) yields the statement handle held by the `LuaSQLiteStmt` userdata at
index `i` and raises an argument error for any other value. -/
def check_stmt (st : LuaState) (i : Int) : Except (Raised × LuaState) Nat :=
  match index2value st i with
  | some (LuaValue.userdata UKind.stmt h) => Except.ok h
  | _ => Except.error (Raised.argument i "LuaSQLiteStmt", st)

/-- Modelled from the spec: the macro `check_db` of `lsqlite.h` (not among the
sources) yields the session handle held by the `LuaSQLite` userdata at index `i`
and raises an argument error for any other value. -/
def check_db (st : LuaState) (i : Int) : Except (Raised × LuaState) Nat :=
  match index2value st i with
  | some (LuaValue.userdata UKind.db h) => Except.ok h
  | _ => Except.error (Raised.argument i "LuaSQLite", st)

/-- A C function returns the number of its results, which Lua takes from the top
of the stack, the first result deepest.  A count that is negative or exceeds the
height of the stack reads outside the frame of the call, and a push beyond the
frame writes outside it: either way the call has no defined end. -/
def call (f : LuaState → Step Int) (st : LuaState) : Outcome :=
  match f st with
  | Except.error (Raised.overrun, st1) => Outcome.undefined st1
  | Except.error (e, st1) => Outcome.raised e st1
  | Except.ok (n, st1) =>
    if 0 ≤ n ∧ n ≤ st1.stack.length then
      Outcome.returned (st1.stack.take n.toNat).reverse st1
    else Outcome.undefined st1

/-! ## `src/lsqlite.c` -/

/-- Result codes of `sqlite3.h`. -/
def SQLITE_OK : Int := 0
def SQLITE_ERROR : Int := 1
def SQLITE_INTERNAL : Int := 2
def SQLITE_PERM : Int := 3
def SQLITE_ABORT : Int := 4
def SQLITE_BUSY : Int := 5
def SQLITE_LOCKED : Int := 6
def SQLITE_NOMEM : Int := 7
def SQLITE_READONLY : Int := 8
def SQLITE_INTERRUPT : Int := 9
def SQLITE_IOERR : Int := 10
def SQLITE_CORRUPT : Int := 11
def SQLITE_NOTFOUND : Int := 12
def SQLITE_FULL : Int := 13
def SQLITE_CANTOPEN : Int := 14
def SQLITE_PROTOCOL : Int := 15
def SQLITE_EMPTY : Int := 16
def SQLITE_SCHEMA : Int := 17
def SQLITE_TOOBIG : Int := 18
def SQLITE_CONSTRAINT : Int := 19
def SQLITE_MISMATCH : Int := 20
def SQLITE_MISUSE : Int := 21
def SQLITE_NOLFS : Int := 22
def SQLITE_AUTH : Int := 23
def SQLITE_FORMAT : Int := 24
def SQLITE_RANGE : Int := 25
def SQLITE_NOTADB : Int := 26
def SQLITE_ROW : Int := 100
def SQLITE_DONE : Int := 101

/-- The codes of the enumeration above, in the order of the `switch` of
`pushres`. -/
def resultCodes : List Int :=
  [SQLITE_OK, SQLITE_ERROR, SQLITE_INTERNAL, SQLITE_PERM, SQLITE_ABORT, SQLITE_BUSY,
   SQLITE_LOCKED, SQLITE_NOMEM, SQLITE_READONLY, SQLITE_INTERRUPT, SQLITE_IOERR,
   SQLITE_CORRUPT, SQLITE_NOTFOUND, SQLITE_FULL, SQLITE_CANTOPEN, SQLITE_PROTOCOL,
   SQLITE_EMPTY, SQLITE_SCHEMA, SQLITE_TOOBIG, SQLITE_CONSTRAINT, SQLITE_MISMATCH,
   SQLITE_MISUSE, SQLITE_NOLFS, SQLITE_AUTH, SQLITE_FORMAT, SQLITE_RANGE, SQLITE_NOTADB,
   SQLITE_ROW, SQLITE_DONE]

/-- The `switch` of `pushres`: the symbolic name of a result code. -/
def resName (res : Int) : String :=
  if res = SQLITE_OK then "ok"
  else if res = SQLITE_ERROR then "error"
  else if res = SQLITE_INTERNAL then "internal"
  else if res = SQLITE_PERM then "perm"
  else if res = SQLITE_ABORT then "abort"
  else if res = SQLITE_BUSY then "busy"
  else if res = SQLITE_LOCKED then "locked"
  else if res = SQLITE_NOMEM then "nomem"
  else if res = SQLITE_READONLY then "readonly"
  else if res = SQLITE_INTERRUPT then "interrupt"
  else if res = SQLITE_IOERR then "ioerr"
  else if res = SQLITE_CORRUPT then "corrupt"
  else if res = SQLITE_NOTFOUND then "notfound"
  else if res = SQLITE_FULL then "full"
  else if res = SQLITE_CANTOPEN then "cantopen"
  else if res = SQLITE_PROTOCOL then "protocol"
  else if res = SQLITE_EMPTY then "empty"
  else if res = SQLITE_SCHEMA then "schema"
  else if res = SQLITE_TOOBIG then "toobig"
  else if res = SQLITE_CONSTRAINT then "constraint"
  else if res = SQLITE_MISMATCH then "mismatch"
  else if res = SQLITE_MISUSE then "misuse"
  else if res = SQLITE_NOLFS then "nolfs"
  else if res = SQLITE_AUTH then "auth"
  else if res = SQLITE_FORMAT then "format"
  else if res = SQLITE_RANGE then "range"
  else if res = SQLITE_NOTADB then "notadb"
  else if res = SQLITE_ROW then "row"
  else if res = SQLITE_DONE then "done"
  else "unknown"

/-- The function `pushres`: pushes the name of the code, one result. -/
def pushres (st : LuaState) (res : Int) : Int × LuaState :=
  (1, lua_pushstring st (some (resName res)))

/-- The loop of `push_cell_table`, from cell `i` on with `n` cells to go. -/
def push_cell_loop (cells : Nat → Option String) : Nat → Nat → LuaState → LuaState
  | 0, _, st => st
  | n + 1, i, st =>
    let st1 := match cells i with
      | none => lua_pushnil st
      | some cell => lua_pushstring st (some cell)
    let st2 := lua_pushinteger st1 ((i : Int) + 1)
    let st3 := lua_insert st2 (-2)
    push_cell_loop cells n (i + 1) (lua_settable st3 (-3))

/-- The function `push_cell_table`: a new table holding the `len` cells under the
keys `1 .. len`, left on top of the stack. -/
def push_cell_table (st : LuaState) (len : Nat) (cells : Nat → Option String) : LuaState :=
  push_cell_loop cells len 0 (lua_createtable st)

/-- The row loop of `get_table`, from row `row` on with `n` rows to go. -/
def get_table_rows (r : GetTableResult) : Nat → Nat → LuaState → LuaState
  | 0, _, st => st
  | n + 1, row, st =>
    let st1 := push_cell_table st r.ncol (fun i => r.qres (r.ncol * row + i))
    let st2 := if row = 0 then lua_pushstring st1 (some "columns")
      else lua_pushinteger st1 (row : Int)
    let st3 := lua_insert st2 (-2)
    get_table_rows r n (row + 1) (lua_settable st3 (-3))

/-- The function `get_table`. -/
def get_table (rt : Runtime) (eng : Engine) (st : LuaState) : Step Int :=
  match check_db st 1 with
  | Except.error e => Except.error e
  | Except.ok db =>
    match luaL_checklstring rt st 2 with
    | Except.error e => Except.error e
    | Except.ok (sql, st1) =>
      let st2 := lua_pop st1 2
      let r := eng.get_table db sql
      let st3 := engineCall st2 (EngineCall.get_table db sql)
      if r.res ≠ SQLITE_OK then
        lua_error (lua_pushstring (engineCall st3 EngineCall.free_table) r.err)
      else
        let st4 := lua_createtable st3
        let st5 := get_table_rows r (r.nrow + 1) 0 st4
        let st6 := engineCall st5 EngineCall.free_table
        Except.ok (2, lua_insert (pushres st6 r.res).2 (-2))

/-- The function `bind_param_idx`, registered as `bind_param_index`. -/
def bind_param_idx (rt : Runtime) (eng : Engine) (st : LuaState) : Step Int :=
  match check_stmt st 1 with
  | Except.error e => Except.error e
  | Except.ok s =>
    match luaL_checklstring rt st 2 with
    | Except.error e => Except.error e
    | Except.ok (name, st1) =>
      Except.ok (eng.bind_parameter_index s name,
        engineCall st1 (EngineCall.bind_parameter_index s name))

/-- The function `param_idx`. -/
def param_idx (rt : Runtime) (eng : Engine) (st : LuaState) (stmt : Nat) (i : Int) : Step Int :=
  if lua_isnumber rt st i then
    Except.ok (doubleToInt (lua_tonumber rt st i), st)
  else
    match luaL_checklstring rt st i with
    | Except.error e => Except.error e
    | Except.ok (key, st1) =>
      Except.ok (eng.bind_parameter_index stmt key,
        engineCall st1 (EngineCall.bind_parameter_index stmt key))

/-- Issue one bind call and push the name of its result code. -/
def issueBind (eng : Engine) (st : LuaState) (c : EngineCall) : Step Int :=
  Except.ok (pushres (engineCall st c) (eng.bind_result c))

/-- The function `bind_dtype`: dispatch on the type of the value on top. -/
def bind_dtype (rt : Runtime) (eng : Engine) (s : Nat) (st : LuaState) (idx : Int) : Step Int :=
  match lua_type st (-1) with
  | LuaType.TNIL => issueBind eng st (EngineCall.bind_null s idx)
  | LuaType.TBOOLEAN =>
    issueBind eng st (EngineCall.bind_int s idx (toCInt (lua_tointeger rt st (-1))))
  | LuaType.TNUMBER => issueBind eng st (EngineCall.bind_double s idx (lua_tonumber rt st (-1)))
  | LuaType.TSTRING =>
    match luaL_checklstring rt st (-1) with
    | Except.error e => Except.error e
    | Except.ok (v, st1) =>
      issueBind eng st1 (EngineCall.bind_text s idx v v.length SQLITE_TRANSIENT)
  | _ => LERROR st (some "Cannot bind type")

/-- The bind call that the `switch` of `bind_dtype` issues at index `idx` for a
value of each type; `none` for the types of its `default` branch. -/
def scalarBind (rt : Runtime) (s : Nat) (idx : Int) : LuaValue → Option EngineCall
  | LuaValue.nil => some (EngineCall.bind_null s idx)
  | LuaValue.boolean b =>
    some (EngineCall.bind_int s idx (toCInt (tointeger rt (LuaValue.boolean b))))
  | LuaValue.number x => some (EngineCall.bind_double s idx x)
  | LuaValue.string v => some (EngineCall.bind_text s idx v v.length SQLITE_TRANSIENT)
  | _ => none

/-- The `while (lua_next(L, 2) != 0)` loop of `bind_table` over the entries that
`lua_next` still has to deliver; the previous key (at first `nil`) is on top.
The body does not write to the table, so the traversal delivers its entries one
after the other. -/
def bind_table_pairs (rt : Runtime) (eng : Engine) (s : Nat) :
    List (LuaValue × LuaValue) → LuaState → Except (Raised × LuaState) LuaState
  | [], st => Except.ok (lua_pop st 1)
  | (k, v) :: rest, st =>
    let st1 := push (push (lua_pop st 1) k) v
    let st2 := lua_pushlstring st1 (some ":") 1
    let st3 := lua_pushvalue st2 (-3)
    match lua_concat2 rt st3 with
    | Except.error e => Except.error e
    | Except.ok st4 =>
      let name := cstr ((lua_tostring rt st4 (-1)).getD "")
      let idx := eng.bind_parameter_index s name
      let st5 := engineCall st4 (EngineCall.bind_parameter_index s name)
      if idx = 0 then
        lua_error (lua_pushfstring st5 ("Invalid statement parameter \x27" ++ name ++ "\x27"))
      else
        match bind_dtype rt eng s (lua_pop st5 1) idx with
        | Except.error e => Except.error e
        | Except.ok (_, st6) => bind_table_pairs rt eng s rest (lua_pop (lua_pop st6 1) 1)

/-- The `for (i=0; i < len; i++)` loop of `bind_table`, at index `i` with `n`
rounds to go, in a frame that reaches up to `limit`.  Each round pushes the key,
replaces it by the value, lets `bind_dtype` push its outcome or its message and
pops once: the value stays on the stack. -/
def bind_table_array (rt : Runtime) (eng : Engine) (s : Nat) (limit : Nat) :
    Nat → Nat → LuaState → Except (Raised × LuaState) LuaState
  | 0, _, st => Except.ok st
  | n + 1, i, st =>
    match withinFrame limit (lua_pushinteger st ((i : Int) + 1)) with
    | Except.error e => Except.error e
    | Except.ok st1 =>
      let st2 := lua_gettable st1 2
      match bind_dtype rt eng s st2 ((i : Int) + 1) with
      | Except.error (e, st3) =>
        match withinFrame limit st3 with
        | Except.error o => Except.error o
        | Except.ok st4 => Except.error (e, st4)
      | Except.ok (_, st3) =>
        match withinFrame limit st3 with
        | Except.error o => Except.error o
        | Except.ok st4 => bind_table_array rt eng s limit n (i + 1) (lua_pop st4 1)

/-- The function `bind_table`; `bind` calls it in the state it was entered in. -/
def bind_table (rt : Runtime) (eng : Engine) (st : LuaState) (s : Nat) : Step Int :=
  let len := lua_objlen rt st 2
  if len = 0 then
    match bind_table_pairs rt eng s (tableAt st 2) (lua_pushnil st) with
    | Except.error e => Except.error e
    | Except.ok st1 => Except.ok (1, st1)
  else
    match bind_table_array rt eng s (frameLimit st) len 0 st with
    | Except.error e => Except.error e
    | Except.ok st1 => Except.ok (1, st1)

/-- The function `bind`. -/
def bind (rt : Runtime) (eng : Engine) (st : LuaState) : Step Int :=
  match check_stmt st 1 with
  | Except.error e => Except.error e
  | Except.ok s =>
    if lua_type st 2 = LuaType.TTABLE then bind_table rt eng st s
    else
      match param_idx rt eng st s 2 with
      | Except.error e => Except.error e
      | Except.ok (i, st1) => bind_dtype rt eng s st1 i

/-- The function `bind_param_count`. -/
def bind_param_count (eng : Engine) (st : LuaState) : Step Int :=
  match check_stmt st 1 with
  | Except.error e => Except.error e
  | Except.ok s =>
    Except.ok (eng.bind_parameter_count s, engineCall st (EngineCall.bind_parameter_count s))

/-- The function `bind_double`. -/
def bind_double (rt : Runtime) (eng : Engine) (st : LuaState) : Step Int :=
  match check_stmt st 1 with
  | Except.error e => Except.error e
  | Except.ok s =>
    match param_idx rt eng st s 2 with
    | Except.error e => Except.error e
    | Except.ok (i, st1) =>
      match luaL_checknumber rt st1 3 with
      | Except.error e => Except.error e
      | Except.ok (v, st2) => issueBind eng st2 (EngineCall.bind_double s i v)

/-- The function `bind_int`. -/
def bind_int (rt : Runtime) (eng : Engine) (st : LuaState) : Step Int :=
  match check_stmt st 1 with
  | Except.error e => Except.error e
  | Except.ok s =>
    match param_idx rt eng st s 2 with
    | Except.error e => Except.error e
    | Except.ok (i, st1) =>
      match luaL_checkinteger rt st1 3 with
      | Except.error e => Except.error e
      | Except.ok (v, st2) => issueBind eng st2 (EngineCall.bind_int s i (toCInt v))

/-- The function `bind_null`. -/
def bind_null (rt : Runtime) (eng : Engine) (st : LuaState) : Step Int :=
  match check_stmt st 1 with
  | Except.error e => Except.error e
  | Except.ok s =>
    match param_idx rt eng st s 2 with
    | Except.error e => Except.error e
    | Except.ok (i, st1) => issueBind eng st1 (EngineCall.bind_null s i)

/-- The function `bind_text`. -/
def bind_text (rt : Runtime) (eng : Engine) (st : LuaState) : Step Int :=
  match check_stmt st 1 with
  | Except.error e => Except.error e
  | Except.ok s =>
    match param_idx rt eng st s 2 with
    | Except.error e => Except.error e
    | Except.ok (i, st1) =>
      match luaL_checklstring rt st1 3 with
      | Except.error e => Except.error e
      | Except.ok (v, st2) =>
        issueBind eng st2 (EngineCall.bind_text s i v v.length SQLITE_TRANSIENT)

/-- The tags `columns` accepts. -/
def columnTags : List Char := ['i', 'f', 't', 'b']

/-- The value `columns` pushes for the tag `c` at column `i`: the answer of the
accessor the tag selects. -/
def columnValue (eng : Engine) (s : Nat) (i : Nat) (c : Char) : LuaValue :=
  if c = 'i' then LuaValue.number (eng.column_int s i : LuaNumber)
  else if c = 'f' then LuaValue.number (eng.column_double s i)
  else if c = 't' then
    LuaValue.string (readBytes (eng.column_text s i) (eng.column_bytes s i).toNat)
  else LuaValue.string (readBytes (eng.column_blob s i) (eng.column_bytes s i).toNat)

/-- The accessor calls `columns` makes for the tag `c` at column `i`. -/
def columnCalls (s : Nat) (i : Nat) (c : Char) : List EngineCall :=
  if c = 'i' then [EngineCall.column_int s i]
  else if c = 'f' then [EngineCall.column_double s i]
  else if c = 't' then [EngineCall.column_bytes s i, EngineCall.column_text s i]
  else [EngineCall.column_bytes s i, EngineCall.column_blob s i]

/-- The `for (i=0; i<len; i++) switch (cs[i])` loop of `columns`, at column `i`
with the tags from `cs[i]` on still to read, in a frame that reaches up to
`limit`. -/
def columns_loop (eng : Engine) (s : Nat) (limit : Nat) :
    List Char → Nat → LuaState → Except (Raised × LuaState) LuaState
  | [], _, st => Except.ok st
  | c :: cs, i, st =>
    if c = 'i' then
      let n := eng.column_int s i
      match withinFrame limit
          (lua_pushinteger (engineCall st (EngineCall.column_int s i)) n) with
      | Except.error e => Except.error e
      | Except.ok st1 => columns_loop eng s limit cs (i + 1) st1
    else if c = 'f' then
      let d := eng.column_double s i
      match withinFrame limit
          (lua_pushnumber (engineCall st (EngineCall.column_double s i)) d) with
      | Except.error e => Except.error e
      | Except.ok st1 => columns_loop eng s limit cs (i + 1) st1
    else if c = 't' then
      let tlen := (eng.column_bytes s i).toNat
      let st1 := engineCall st (EngineCall.column_bytes s i)
      let t := eng.column_text s i
      let st2 := engineCall st1 (EngineCall.column_text s i)
      match withinFrame limit (lua_pushlstring st2 t tlen) with
      | Except.error e => Except.error e
      | Except.ok st3 => columns_loop eng s limit cs (i + 1) st3
    else if c = 'b' then
      let tlen := (eng.column_bytes s i).toNat
      let st1 := engineCall st (EngineCall.column_bytes s i)
      let t := eng.column_blob s i
      let st2 := engineCall st1 (EngineCall.column_blob s i)
      match withinFrame limit (lua_pushlstring st2 t tlen) with
      | Except.error e => Except.error e
      | Except.ok st3 => columns_loop eng s limit cs (i + 1) st3
    else
      lua_error (lua_pushfstring st
        ("Invalid column tag \x27" ++ cstr (String.singleton c) ++
          "\x27 \x2d\x2d must be in \x27iftb\x27"))

/-- The function `columns`. -/
def columns (rt : Runtime) (eng : Engine) (st : LuaState) : Step Int :=
  match check_stmt st 1 with
  | Except.error e => Except.error e
  | Except.ok s =>
    match luaL_checklstring rt st 2 with
    | Except.error e => Except.error e
    | Except.ok (cs, st1) =>
      let len := cs.length
      let ct := eng.column_count s
      let st2 := engineCall st1 (EngineCall.column_count s)
      if (len : Int) ≠ ct then
        lua_error (lua_pushfstring st2
          ("Invalid column count " ++ toString len ++ ", result has " ++ toString ct ++
            " columns"))
      else
        match columns_loop eng s (frameLimit st) cs.data 0 st2 with
        | Except.error e => Except.error e
        | Except.ok st3 => Except.ok ((len : Int), st3)

/-- The check `luaL_optlstring(L, i, d, &len)`: the default for an absent or nil
argument, `luaL_checklstring` otherwise. -/
def luaL_optlstring (rt : Runtime) (st : LuaState) (i : Int) (d : String) : Step String :=
  match index2value st i with
  | none => Except.ok (d, st)
  | some LuaValue.nil => Except.ok (d, st)
  | some _ => luaL_checklstring rt st i

/-- The calls `lua_newuserdata`, `luaL_getmetatable`, `lua_setmetatable` of `open`:
a new userdata of the given metatable holding the handle, left on top. -/
def newObject (st : LuaState) (kind : UKind) (handle : Nat) : LuaState :=
  push st (LuaValue.userdata kind handle)

/-- The function `open` (a keyword of Lean, hence the name `db_open`). -/
def db_open (rt : Runtime) (se : Sessions) (st : LuaState) : Step Int :=
  match luaL_optlstring rt st 1 ":memory:" with
  | Except.error e => Except.error e
  | Except.ok (fn, st1) =>
    let res := (se.open_result fn).1
    let db := (se.open_result fn).2
    let st2 := engineCall st1 (EngineCall.sqlite3_open fn)
    if res = SQLITE_OK then
      Except.ok (1, newObject st2 UKind.db db)
    else
      LERROR (engineCall st2 (EngineCall.errmsg db)) (se.errmsg db)

/-- The function `close`. -/
def close (se : Sessions) (st : LuaState) : Step Int :=
  match check_db st 1 with
  | Except.error e => Except.error e
  | Except.ok db =>
    Except.ok (pushres (engineCall st (EngineCall.sqlite3_close db)) (se.close_result db))

/-- The function `db_gc`, registered as `__gc` of a database. -/
def db_gc (st : LuaState) : Step Int :=
  match check_db st 1 with
  | Except.error e => Except.error e
  | Except.ok db => Except.ok (0, engineCall st (EngineCall.sqlite3_close db))

/-- The function `errcode`. -/
def errcode (se : Sessions) (st : LuaState) : Step Int :=
  match check_db st 1 with
  | Except.error e => Except.error e
  | Except.ok db =>
    Except.ok (1, lua_pushinteger (engineCall st (EngineCall.errcode db)) (se.errcode db))

/-- The function `errmsg`. -/
def errmsg (se : Sessions) (st : LuaState) : Step Int :=
  match check_db st 1 with
  | Except.error e => Except.error e
  | Except.ok db =>
    Except.ok (1, lua_pushstring (engineCall st (EngineCall.errmsg db)) (se.errmsg db))

/-! ## What a call did

Projections of an outcome and the vocabulary in which the theorems describe the
engine calls and tables the binding produces. -/

/-- The results of a call, when it returned. -/
def Outcome.results : Outcome → Option (List LuaValue)
  | Outcome.returned rs _ => some rs
  | _ => none

/-- The state in which a call ended. -/
def Outcome.state : Outcome → LuaState
  | Outcome.returned _ st => st
  | Outcome.raised _ st => st
  | Outcome.undefined st => st

/-- The error a call raised, if it raised. -/
def Outcome.error : Outcome → Option Raised
  | Outcome.raised e _ => some e
  | _ => none

/-- The types the `switch` of `bind_dtype` binds. -/
def bindable : LuaValue → Bool
  | LuaValue.nil => true
  | LuaValue.boolean _ => true
  | LuaValue.number _ => true
  | LuaValue.string _ => true
  | _ => false

/-- The scalar type rule in the words of the specification, not taken from the
code: null binds the null of the engine, a boolean the integer 0 or 1, a number
a double, a text a copy of its bytes with transient storage; a value of any
other type is not bound. -/
def specScalarRule (s : Nat) (idx : Int) : LuaValue → Option EngineCall
  | LuaValue.nil => some (EngineCall.bind_null s idx)
  | LuaValue.boolean b => some (EngineCall.bind_int s idx (if b then 1 else 0))
  | LuaValue.number x => some (EngineCall.bind_double s idx x)
  | LuaValue.string v => some (EngineCall.bind_text s idx v v.length SQLITE_TRANSIENT)
  | _ => none

/-- The parameter name `bind_table` builds for a key: `:` followed by the key. -/
def paramName (rt : Runtime) (k : LuaValue) : String :=
  ":" ++ (tostring rt k).getD ""

/-- The engine calls the claim expects for a key/value entry whose lookup
succeeds: the lookup of the name, then the bind of the value, by the scalar type
rule, at the index the lookup returned. -/
def pairCalls (rt : Runtime) (eng : Engine) (s : Nat) (e : LuaValue × LuaValue) :
    List EngineCall :=
  EngineCall.bind_parameter_index s (paramName rt e.1) ::
    (specScalarRule s (eng.bind_parameter_index s (paramName rt e.1)) e.2).toList

/-- A key/value entry that the loop of `bind_table` binds by the scalar type
rule: the key is a string or a number whose name holds no zero byte and is a
parameter of the statement, the value is of bindable type and is not `true`
(which `bind_dtype` binds as the integer 0). -/
@[reducible] def pairBinds (rt : Runtime) (eng : Engine) (s : Nat)
    (e : LuaValue × LuaValue) : Prop :=
  (tostring rt e.1).isSome = true ∧ Char.ofNat 0 ∉ (paramName rt e.1).data ∧
    bindable e.2 = true ∧ e.2 ≠ LuaValue.boolean true ∧
    eng.bind_parameter_index s (paramName rt e.1) ≠ 0

/-- The value at position `j + 1` of the array `t`. -/
def arrayValue (t : LuaTable) (j : Nat) : LuaValue :=
  tableGet t (LuaValue.number (((j : Int) + 1 : Int) : LuaNumber))

/-- The bind the claim expects for position `j + 1` of the array `t`: the one the
scalar type rule gives for the value at that position. -/
def arrayBind (s : Nat) (t : LuaTable) (j : Nat) : Option EngineCall :=
  specScalarRule s ((j : Int) + 1) (arrayValue t j)

/-- The Lua value `push_cell_table` stores for an engine cell: `nil` for a NULL
pointer, the text otherwise. -/
def cellValue : Option String → LuaValue
  | none => LuaValue.nil
  | some cell => LuaValue.string cell

/-- The key under which `get_table` stores row `row`: `"columns"` for the header
row 0, the row number for a data row. -/
def rowKey (row : Nat) : LuaValue :=
  if row = 0 then LuaValue.string "columns" else LuaValue.number ((row : Int) : LuaNumber)

/-- The key of cell `i` (counted from 0) within a row: `i + 1`. -/
def cellKey (i : Nat) : LuaValue := LuaValue.number (((i : Int) + 1 : Int) : LuaNumber)

/-- The writes `t[keys i] = vals i`, ..., `t[keys (i + n - 1)] = vals (i + n - 1)`
one after the other. -/
def setAll (keys vals : Nat → LuaValue) : Nat → Nat → LuaTable → LuaTable
  | 0, _, t => t
  | n + 1, i, t => setAll keys vals n (i + 1) (tableSet t (keys i) (vals i))

/-- The table `push_cell_table` builds for row `row` of a result. -/
def rowTable (r : GetTableResult) (row : Nat) : LuaTable :=
  setAll cellKey (fun i => cellValue (r.qres (r.ncol * row + i))) r.ncol 0 []

/-! ## The life of a connection

A connection is the userdata `open` returns.  Lua calls the wrapper functions on
it one after the other, each in a frame of its own, and at the end of its life
calls its `__gc` handler once.  The sequences below are made of `close`,
`errcode`, `errmsg` and `get_table`; `exec` (which runs Lua callbacks) and
`prepare` are not part of them. -/

/-- A call of a wrapper function on a connection: `db:close()`, `db:errcode()`,
`db:errmsg()` or `db:get_table(sql)`. -/
inductive DbOp
  | close
  | errcode
  | errmsg
  | get_table (sql : String)
  deriving DecidableEq

/-- The outcome of one wrapper call on the connection holding the handle `h`. -/
def runOp (rt : Runtime) (eng : Engine) (se : Sessions) (h : Nat) (heap : List LuaTable)
    (trace : List EngineCall) : DbOp → Outcome
  | DbOp.close => call (close se) (enter [LuaValue.userdata UKind.db h] heap trace)
  | DbOp.errcode => call (errcode se) (enter [LuaValue.userdata UKind.db h] heap trace)
  | DbOp.errmsg => call (errmsg se) (enter [LuaValue.userdata UKind.db h] heap trace)
  | DbOp.get_table sql =>
    call (get_table rt eng) (enter [LuaValue.userdata UKind.db h, LuaValue.string sql] heap trace)

/-- The heap and the engine trace after a sequence of wrapper calls. -/
def runOps (rt : Runtime) (eng : Engine) (se : Sessions) (h : Nat) :
    List DbOp → List LuaTable → List EngineCall → List LuaTable × List EngineCall
  | [], heap, trace => (heap, trace)
  | op :: ops, heap, trace =>
    runOps rt eng se h ops (runOp rt eng se h heap trace op).state.heap
      (runOp rt eng se h heap trace op).state.trace

/-- The engine trace of the life of a connection: the wrapper calls `ops`, then
the `__gc` handler. -/
def lifetime (rt : Runtime) (eng : Engine) (se : Sessions) (h : Nat) (ops : List DbOp)
    (heap : List LuaTable) (trace : List EngineCall) : List EngineCall :=
  (call db_gc
    (enter [LuaValue.userdata UKind.db h] (runOps rt eng se h ops heap trace).1
      (runOps rt eng se h ops heap trace).2)).state.trace

/-- The engine calls of one wrapper call. -/
def opCalls (h : Nat) : DbOp → List EngineCall
  | DbOp.close => [EngineCall.sqlite3_close h]
  | DbOp.errcode => [EngineCall.errcode h]
  | DbOp.errmsg => [EngineCall.errmsg h]
  | DbOp.get_table sql => [EngineCall.get_table h sql, EngineCall.free_table]

/-! ## A reference runtime and a reference engine

Concrete instances of `Runtime` and `Engine`, used to evaluate the binding on
concrete inputs and to follow a value from a bind through a step to a column
read.  The engine follows the documented behaviour of the SQLite C interface for
a statement of the form `SELECT ?, ..., ?`, whose single result row holds the
values bound to its parameters. -/

/-- Decimal digits read as a natural number. -/
def parseDigits : List Char → Nat → Option Nat
  | [], acc => some acc
  | c :: cs, acc =>
    if c.isDigit then parseDigits cs (acc * 10 + (c.toNat - 48)) else none

/-- The least border of a table: the count of the keys 1, 2, ... present without
a gap. -/
def firstBorder (t : LuaTable) : Nat → Nat → Nat
  | 0, i => i
  | n + 1, i =>
    if tableGet t (LuaValue.number (((i + 1 : Nat) : Int) : LuaNumber)) = LuaValue.nil then i
    else firstBorder t n (i + 1)

/-- A runtime for concrete evaluation: the least border, unsigned decimal
numerals, truncation to integers, and the decimal form of integral numbers (no
other number is formatted in the evaluations below). -/
def refRuntime : Runtime :=
  { objlen := fun t => firstBorder t t.length 0
    str2number := fun s =>
      match s.data with
      | [] => none
      | c :: cs => (parseDigits (c :: cs) 0).map (fun n => ((n : Int) : LuaNumber))
    number2str := fun x => toString (doubleToInt x)
    number2integer := doubleToInt }

/-- A value held by the engine. -/
inductive Cell
  | null
  | integer (n : Int)
  | real (x : LuaNumber)
  | text (s : String)
  deriving DecidableEq

/-- The engine conversions between text and numbers, left open. -/
structure Conv where
  textToInt : String → Int
  textToReal : String → LuaNumber
  intToText : Int → String
  realToText : LuaNumber → String

/-- A prepared statement `SELECT ?, ..., ?`: the names of its parameters (index 1
first), the values bound to them, and the current row. -/
structure StmtModel where
  names : List String
  bound : List Cell
  row : List Cell

/-- A freshly prepared statement: every parameter is NULL, no row yet. -/
def StmtModel.fresh (names : List String) : StmtModel :=
  { names := names, bound := names.map (fun _ => Cell.null), row := [] }

/-- The engine keeps 64-bit integers: a `double` converts by truncation, clamped
to the 64-bit range. -/
def clamp64 (n : Int) : Int :=
  if n < -9223372036854775808 then -9223372036854775808
  else if 9223372036854775807 < n then 9223372036854775807
  else n

/-- The 64-bit integer the engine reads from a `double` it holds. -/
def realToInt64 : LuaNumber → Int
  | LuaNumber.finite q => clamp64 (Int.tdiv q.num q.den)
  | LuaNumber.inf false => 9223372036854775807
  | LuaNumber.inf true => -9223372036854775808
  | LuaNumber.nan => 0

def Cell.toInt (cv : Conv) : Cell → Int
  | Cell.null => 0
  | Cell.integer n => toCInt n
  | Cell.real x => toCInt (realToInt64 x)
  | Cell.text s => toCInt (cv.textToInt s)

def Cell.toDouble (cv : Conv) : Cell → LuaNumber
  | Cell.null => 0
  | Cell.integer n => (n : LuaNumber)
  | Cell.real x => x
  | Cell.text s => cv.textToReal s

def Cell.toText (cv : Conv) : Cell → Option String
  | Cell.null => none
  | Cell.integer n => some (cv.intToText n)
  | Cell.real x => some (cv.realToText x)
  | Cell.text s => some s

def Cell.bytes (cv : Conv) (c : Cell) : Int :=
  match c.toText cv with
  | some s => (s.length : Int)
  | none => 0

/-- The name lookup of `sqlite3_bind_parameter_index`: the 1-based position of
the name, 0 when the statement has no such parameter. -/
def nameIndex (name : String) : List String → Int → Int
  | [], _ => 0
  | n :: ns, i => if n = name then i else nameIndex name ns (i + 1)

/-- The result code of a bind at index `idx`. -/
def StmtModel.bindCode (m : StmtModel) (idx : Int) : Int :=
  if 1 ≤ idx ∧ idx ≤ m.bound.length then SQLITE_OK else SQLITE_RANGE

/-- The answers of the engine for the statement `m` (whatever the handle). -/
def refEngine (cv : Conv) (m : StmtModel) : Engine :=
  { bind_parameter_index := fun _ name => nameIndex name m.names 1
    bind_parameter_count := fun _ => (m.names.length : Int)
    bind_result := fun c =>
      match c with
      | EngineCall.bind_null _ idx => m.bindCode idx
      | EngineCall.bind_int _ idx _ => m.bindCode idx
      | EngineCall.bind_double _ idx _ => m.bindCode idx
      | EngineCall.bind_text _ idx _ _ _ => m.bindCode idx
      | _ => SQLITE_MISUSE
    column_count := fun _ => (m.names.length : Int)
    column_int := fun _ i => (m.row.getD i Cell.null).toInt cv
    column_double := fun _ i => (m.row.getD i Cell.null).toDouble cv
    column_bytes := fun _ i => (m.row.getD i Cell.null).bytes cv
    column_text := fun _ i => (m.row.getD i Cell.null).toText cv
    column_blob := fun _ i => (m.row.getD i Cell.null).toText cv
    get_table := fun _ _ =>
      { res := SQLITE_MISUSE, qres := fun _ => none, nrow := 0, ncol := 0, err := none } }

/-- Store a value at parameter `idx` when the index is in range. -/
def StmtModel.store (m : StmtModel) (idx : Int) (c : Cell) : StmtModel :=
  if 1 ≤ idx ∧ idx ≤ m.bound.length then { m with bound := m.bound.set (idx.toNat - 1) c }
  else m

/-- The effect of one engine call on the statement; the engine keeps a bound NaN
as NULL. -/
def StmtModel.apply (m : StmtModel) : EngineCall → StmtModel
  | EngineCall.bind_null _ idx => m.store idx Cell.null
  | EngineCall.bind_int _ idx v => m.store idx (Cell.integer v)
  | EngineCall.bind_double _ idx v =>
    if v = LuaNumber.nan then m.store idx Cell.null else m.store idx (Cell.real v)
  | EngineCall.bind_text _ idx t n _ => m.store idx (Cell.text (String.mk (t.data.take n)))
  | _ => m

/-- The step `sqlite3_step` of `SELECT ?, ..., ?`: the row holds the bound values. -/
def StmtModel.step (m : StmtModel) : StmtModel := { m with row := m.bound }

/-- The conversions used in concrete evaluations: decimal integers. -/
def decimalConv : Conv :=
  { textToInt := fun s => ((parseDigits s.data 0).getD 0 : Nat)
    textToReal := fun s => (((parseDigits s.data 0).getD 0 : Nat) : LuaNumber)
    intToText := fun n => toString n
    realToText := fun x => toString (doubleToInt x) }

/-- The Lua call `s:bind(k, v)` on the statement `m`: the statement afterwards. -/
def bindOne (rt : Runtime) (cv : Conv) (m : StmtModel) (k v : LuaValue) : StmtModel :=
  (call (bind rt (refEngine cv m))
    (enter [LuaValue.userdata UKind.stmt 0, k, v] [] [])).state.trace.foldl StmtModel.apply m

/-- Bind four values to the parameters 1 to 4 with `s:bind(i, v)`, step, and read
the row with `s:columns(tags)`. -/
def roundTrip (rt : Runtime) (cv : Conv) (v1 v2 v3 v4 : LuaValue) (tags : String) : Outcome :=
  let m0 := StmtModel.fresh ["", "", "", ""]
  let m1 := bindOne rt cv m0 (LuaValue.number 1) v1
  let m2 := bindOne rt cv m1 (LuaValue.number 2) v2
  let m3 := bindOne rt cv m2 (LuaValue.number 3) v3
  let m4 := bindOne rt cv m3 (LuaValue.number 4) v4
  call (columns rt (refEngine cv m4.step))
    (enter [LuaValue.userdata UKind.stmt 0, LuaValue.string tags] [] [])

/-! ## Concrete inputs -/

/-- A statement with two columns whose current row is `(7, "x")`. -/
def demoRow : StmtModel :=
  { names := ["", ""], bound := [Cell.integer 7, Cell.text "x"],
    row := [Cell.integer 7, Cell.text "x"] }

/-- A freshly prepared `SELECT :name, :count`. -/
def demoNamed : StmtModel := StmtModel.fresh [":name", ":count"]

/-- A freshly prepared `SELECT ?, ?, ?`. -/
def demoPositional : StmtModel := StmtModel.fresh ["", "", ""]

/-- The table `{ 7, 7, ..., 7 }` of 20 elements. -/
def demoArrayTwenty : LuaTable :=
  (List.range 20).map
    (fun i => (LuaValue.number (((i : Int) + 1 : Int) : LuaNumber), LuaValue.number 7))

/-- The statement `SELECT ?, ..., ?` with 20 parameters. -/
def demoTwenty : StmtModel := StmtModel.fresh (List.replicate 20 "")

/-- A statement with 21 columns, all NULL in its current row. -/
def demoWide : StmtModel := StmtModel.fresh (List.replicate 21 "")

/-- The tag string of 21 tags `i`. -/
def demoWideTags : String := String.mk (List.replicate 21 'i')

/-- The table `{ name = "foo", count = 3 }`. -/
def demoPairs : LuaTable :=
  [(LuaValue.string "name", LuaValue.string "foo"), (LuaValue.string "count", LuaValue.number 3)]

/-- The table `{ name = "foo", nope = 3 }`. -/
def demoPairsUnknown : LuaTable :=
  [(LuaValue.string "name", LuaValue.string "foo"), (LuaValue.string "nope", LuaValue.number 3)]

/-- The table `{ name = print }`: a function as the value. -/
def demoPairsFunction : LuaTable := [(LuaValue.string "name", LuaValue.function 0)]

/-- The table `{ [true] = 1 }`: a boolean as the key. -/
def demoPairsBooleanKey : LuaTable := [(LuaValue.boolean true, LuaValue.number 1)]

/-- The table whose only key is the three bytes `a`, zero, `b`, with the value 1. -/
def demoPairsZeroByte : LuaTable := [(LuaValue.string "a\x00b", LuaValue.number 1)]

/-- The statement `SELECT :a`. -/
def demoOneNamed : StmtModel := StmtModel.fresh [":a"]

/-- The table `{ 10, 20 }`. -/
def demoArray : LuaTable :=
  [(LuaValue.number 1, LuaValue.number 10), (LuaValue.number 2, LuaValue.number 20)]

/-- The table `{ 10, print, 30 }`: a function at position 2. -/
def demoArrayFunction : LuaTable :=
  [(LuaValue.number 1, LuaValue.number 10), (LuaValue.number 2, LuaValue.function 0),
   (LuaValue.number 3, LuaValue.number 30)]

/-- An engine whose `sqlite3_get_table` succeeds with the header `a`, `b` and
the single data row `1`, NULL. -/
def demoTableEngine : Engine :=
  { refEngine decimalConv demoNamed with
    get_table := fun _ _ =>
      { res := SQLITE_OK, qres := fun i => [some "a", some "b", some "1", none].getD i none,
        nrow := 1, ncol := 2, err := none } }

/-- The number 1.5. -/
def oneAndHalf : LuaNumber := LuaNumber.finite ⟨3, 2, by decide, by decide⟩

/-- Sessions for concrete evaluation: every `sqlite3_open` succeeds with the
handle 7. -/
def demoSessions : Sessions :=
  { open_result := fun _ => (SQLITE_OK, 7)
    close_result := fun _ => SQLITE_OK
    errcode := fun _ => 0
    errmsg := fun _ => some "not an error" }

/-! ## Theorems -/

/-! ### Reading the stack -/

@[simp] theorem index2value_top (a : LuaValue) (rest : List LuaValue) (h : List LuaTable)
    (t : List EngineCall) :
    index2value { stack := a :: rest, heap := h, trace := t } (-1) = some a := by
  simp [index2value, slot]

@[simp] theorem index2value_third (a b c : LuaValue) (rest : List LuaValue) (h : List LuaTable)
    (t : List EngineCall) :
    index2value { stack := a :: b :: c :: rest, heap := h, trace := t } (-3) = some c := by
  have h3 : (3 : Int) ≤ (rest.length : Int) + 1 + 1 + 1 := by omega
  simp [index2value, slot, h3]

theorem index2value_first (xs : List LuaValue) (a : LuaValue) (h : List LuaTable)
    (t : List EngineCall) :
    index2value { stack := xs ++ [a], heap := h, trace := t } 1 = some a := by
  have h1 : (1 : Int) ≤ (xs.length : Int) + 1 := by omega
  simp [index2value, slot, h1]

theorem index2value_second (xs : List LuaValue) (a b : LuaValue) (h : List LuaTable)
    (t : List EngineCall) :
    index2value { stack := xs ++ [a, b], heap := h, trace := t } 2 = some a := by
  have h2 : (2 : Int) ≤ (xs.length : Int) + 2 := by omega
  simp [index2value, slot, h2, List.getElem_append_right]

theorem index2value_third_arg (xs : List LuaValue) (a b c : LuaValue) (h : List LuaTable)
    (t : List EngineCall) :
    index2value { stack := xs ++ [a, b, c], heap := h, trace := t } 3 = some a := by
  have h3 : (3 : Int) ≤ (xs.length : Int) + 3 := by omega
  simp [index2value, slot, h3, List.getElem_append_right]

/-! ### The tagged reader `columns` -/

theorem columnTags_cases {c : Char} (h : c ∈ columnTags) :
    c = 'i' ∨ c = 'f' ∨ c = 't' ∨ c = 'b' := by
  simpa [columnTags] using h

/-- A string without a zero byte is its own C string. -/
theorem cstr_of_no_zero (t : String) (h : Char.ofNat 0 ∉ t.data) : cstr t = t := by
  have h1 : t.data.takeWhile (fun c => decide (c ≠ Char.ofNat 0)) = t.data := by
    rw [List.takeWhile_eq_self_iff]
    intro c hc
    have : c ≠ Char.ofNat 0 := fun h2 => h (h2 ▸ hc)
    simpa using this
  simp only [cstr, h1]

/-- The frame of a function entered with two arguments. -/
theorem frameLimit_enter_two (a b : LuaValue) (heap : List LuaTable) (trace : List EngineCall) :
    frameLimit (enter [a, b] heap trace) = 2 + LUA_MINSTACK := by
  simp [frameLimit, enter]

/-- On valid tags that fit the frame the loop pushes the value of every tag, in
order. -/
theorem columns_loop_valid (eng : Engine) (s limit : Nat) :
    ∀ (cs : List Char) (i : Nat) (st : LuaState), (∀ c ∈ cs, c ∈ columnTags) →
      st.stack.length + cs.length ≤ limit →
      columns_loop eng s limit cs i st = Except.ok
        { stack := ((cs.enumFrom i).map (fun p => columnValue eng s p.1 p.2)).reverse ++ st.stack,
          heap := st.heap,
          trace := st.trace ++ ((cs.enumFrom i).map (fun p => columnCalls s p.1 p.2)).flatten } := by
  intro cs
  induction cs with
  | nil => intro i st _ _; simp [columns_loop]
  | cons c cs ih =>
    intro i st hv hcap
    have hc := columnTags_cases (hv c (List.mem_cons_self _ _))
    have hcs : ∀ d ∈ cs, d ∈ columnTags := fun d hd => hv d (List.mem_cons_of_mem _ hd)
    simp only [List.length_cons] at hcap
    have hle : st.stack.length + 1 ≤ limit := by omega
    rcases hc with h | h | h | h <;> subst h
    · simp only [columns_loop, withinFrame, lua_pushinteger, push, engineCall, List.length_cons,
        if_pos hle, if_true]
      rw [ih _ _ hcs]
      · simp [columnValue, columnCalls, List.enumFrom]
      · simp only [List.length_cons]; omega
    · simp only [columns_loop, withinFrame, lua_pushnumber, push, engineCall, List.length_cons,
        if_pos hle, if_true, Char.reduceEq, if_false]
      rw [ih _ _ hcs]
      · simp [columnValue, columnCalls, List.enumFrom]
      · simp only [List.length_cons]; omega
    · simp only [columns_loop, withinFrame, lua_pushlstring, push, engineCall, List.length_cons,
        if_pos hle, if_true, Char.reduceEq, if_false]
      rw [ih _ _ hcs]
      · simp [columnValue, columnCalls, List.enumFrom]
      · simp only [List.length_cons]; omega
    · simp only [columns_loop, withinFrame, lua_pushlstring, push, engineCall, List.length_cons,
        if_pos hle, if_true, Char.reduceEq, if_false]
      rw [ih _ _ hcs]
      · simp [columnValue, columnCalls, List.enumFrom]
      · simp only [List.length_cons]; omega

/-- At the first invalid tag the loop raises the message with that tag, after
reading the columns before it, when these fit the frame. -/
theorem columns_loop_invalid (eng : Engine) (s limit : Nat) (c : Char) (post : List Char)
    (hc : c ∉ columnTags) :
    ∀ (pre : List Char) (i : Nat) (st : LuaState), (∀ d ∈ pre, d ∈ columnTags) →
      st.stack.length + pre.length ≤ limit →
      ∃ st1, columns_loop eng s limit (pre ++ c :: post) i st =
        Except.error (Raised.value (LuaValue.string
          ("Invalid column tag \x27" ++ cstr (String.singleton c) ++
            "\x27 \x2d\x2d must be in \x27iftb\x27")), st1) := by
  intro pre
  induction pre with
  | nil =>
    intro i st _ _
    have h : c ≠ 'i' ∧ c ≠ 'f' ∧ c ≠ 't' ∧ c ≠ 'b' := by simpa [columnTags] using hc
    exact ⟨_, by simp only [List.nil_append, columns_loop, if_neg h.1, if_neg h.2.1,
      if_neg h.2.2.1, if_neg h.2.2.2, lua_error, lua_pushfstring, push, List.headD_cons]; rfl⟩
  | cons d pre ih =>
    intro i st hv hcap
    have hd := columnTags_cases (hv d (List.mem_cons_self _ _))
    have hpre : ∀ e ∈ pre, e ∈ columnTags := fun e he => hv e (List.mem_cons_of_mem _ he)
    simp only [List.length_cons] at hcap
    have hle : st.stack.length + 1 ≤ limit := by omega
    rcases hd with h | h | h | h <;> subst h
    · simp only [List.cons_append, columns_loop, withinFrame, lua_pushinteger, push, engineCall,
        List.length_cons, if_pos hle, if_true]
      exact ih _ _ hpre (by simp only [List.length_cons]; omega)
    · simp only [List.cons_append, columns_loop, withinFrame, lua_pushnumber, push, engineCall,
        List.length_cons, if_pos hle, if_true, Char.reduceEq, if_false]
      exact ih _ _ hpre (by simp only [List.length_cons]; omega)
    · simp only [List.cons_append, columns_loop, withinFrame, lua_pushlstring, push, engineCall,
        List.length_cons, if_pos hle, if_true, Char.reduceEq, if_false]
      exact ih _ _ hpre (by simp only [List.length_cons]; omega)
    · simp only [List.cons_append, columns_loop, withinFrame, lua_pushlstring, push, engineCall,
        List.length_cons, if_pos hle, if_true, Char.reduceEq, if_false]
      exact ih _ _ hpre (by simp only [List.length_cons]; omega)

/-- Valid tags that do not fit the frame: the loop pushes beyond it. -/
theorem columns_loop_overrun (eng : Engine) (s limit : Nat) :
    ∀ (cs : List Char) (i : Nat) (st : LuaState), st.stack.length ≤ limit →
      limit < st.stack.length + cs.length →
      (∀ c ∈ cs.take (limit + 1 - st.stack.length), c ∈ columnTags) →
      ∃ st1, columns_loop eng s limit cs i st = Except.error (Raised.overrun, st1) := by
  intro cs
  induction cs with
  | nil => intro i st h1 h2; simp only [List.length_nil] at h2; omega
  | cons c cs ih =>
    intro i st h1 h2 hv
    simp only [List.length_cons] at h2
    have htake : limit + 1 - st.stack.length = (limit - st.stack.length) + 1 := by omega
    rw [htake, List.take_succ_cons] at hv
    have hc := columnTags_cases (hv c (List.mem_cons_self _ _))
    have step : ∀ st1 : LuaState, st1.stack.length = st.stack.length + 1 →
        (∃ st2, withinFrame limit st1 = Except.error (Raised.overrun, st2)) ∨
        (withinFrame limit st1 = Except.ok st1 ∧
          ∃ st2, columns_loop eng s limit cs (i + 1) st1 = Except.error (Raised.overrun, st2)) := by
      intro st1 hst1
      by_cases hfit : st.stack.length + 1 ≤ limit
      · right
        refine ⟨by simp [withinFrame, hst1, hfit], ih (i + 1) st1 (by omega) (by omega) ?_⟩
        intro d hd
        have h3 : limit + 1 - st1.stack.length = limit - st.stack.length := by omega
        rw [h3] at hd
        exact hv d (List.mem_cons_of_mem _ hd)
      · left
        exact ⟨st1, by simp [withinFrame, hst1, hfit]⟩
    rcases hc with h | h | h | h <;> subst h
    · rcases step (lua_pushinteger (engineCall st (EngineCall.column_int s i))
        (eng.column_int s i)) rfl with ⟨st2, h3⟩ | ⟨h3, st2, h4⟩
      · exact ⟨st2, by simp only [columns_loop, if_true, h3]⟩
      · exact ⟨st2, by simp only [columns_loop, if_true, h3, h4]⟩
    · rcases step (lua_pushnumber (engineCall st (EngineCall.column_double s i))
        (eng.column_double s i)) rfl with ⟨st2, h3⟩ | ⟨h3, st2, h4⟩
      · exact ⟨st2, by simp only [columns_loop, Char.reduceEq, if_false, if_true, h3]⟩
      · exact ⟨st2, by simp only [columns_loop, Char.reduceEq, if_false, if_true, h3, h4]⟩
    · rcases step (lua_pushlstring
          (engineCall (engineCall st (EngineCall.column_bytes s i)) (EngineCall.column_text s i))
          (eng.column_text s i) (eng.column_bytes s i).toNat) rfl with ⟨st2, h3⟩ | ⟨h3, st2, h4⟩
      · exact ⟨st2, by simp only [columns_loop, Char.reduceEq, if_false, if_true, h3]⟩
      · exact ⟨st2, by simp only [columns_loop, Char.reduceEq, if_false, if_true, h3, h4]⟩
    · rcases step (lua_pushlstring
          (engineCall (engineCall st (EngineCall.column_bytes s i)) (EngineCall.column_blob s i))
          (eng.column_blob s i) (eng.column_bytes s i).toNat) rfl with ⟨st2, h3⟩ | ⟨h3, st2, h4⟩
      · exact ⟨st2, by simp only [columns_loop, Char.reduceEq, if_false, if_true, h3]⟩
      · exact ⟨st2, by simp only [columns_loop, Char.reduceEq, if_false, if_true, h3, h4]⟩

/-- Whatever the tags, the loop ends normally, raises a tag message or pushes
beyond the frame. -/
theorem columns_loop_total (eng : Engine) (s limit : Nat) :
    ∀ (cs : List Char) (i : Nat) (st : LuaState),
      (∃ st1, columns_loop eng s limit cs i st = Except.ok st1) ∨
      (∃ c st1, columns_loop eng s limit cs i st =
        Except.error (Raised.value (LuaValue.string
          ("Invalid column tag \x27" ++ cstr (String.singleton c) ++
            "\x27 \x2d\x2d must be in \x27iftb\x27")), st1)) ∨
      (∃ st1, columns_loop eng s limit cs i st = Except.error (Raised.overrun, st1)) := by
  intro cs
  induction cs with
  | nil => intro i st; exact Or.inl ⟨st, rfl⟩
  | cons c cs ih =>
    intro i st
    have step : ∀ st1 : LuaState,
        (∃ st2, withinFrame limit st1 = Except.error (Raised.overrun, st2)) ∨
        withinFrame limit st1 = Except.ok st1 := by
      intro st1
      by_cases hfit : st1.stack.length ≤ limit
      · right; simp [withinFrame, hfit]
      · left; exact ⟨st1, by simp [withinFrame, hfit]⟩
    by_cases h1 : c = 'i'
    · subst h1
      rcases step (lua_pushinteger (engineCall st (EngineCall.column_int s i))
        (eng.column_int s i)) with ⟨st2, h3⟩ | h3
      · exact Or.inr (Or.inr ⟨st2, by simp only [columns_loop, if_true, h3]⟩)
      · simp only [columns_loop, if_true, h3]; exact ih _ _
    by_cases h2 : c = 'f'
    · subst h2
      rcases step (lua_pushnumber (engineCall st (EngineCall.column_double s i))
        (eng.column_double s i)) with ⟨st2, h3⟩ | h3
      · exact Or.inr (Or.inr ⟨st2,
          by simp only [columns_loop, Char.reduceEq, if_false, if_true, h3]⟩)
      · simp only [columns_loop, Char.reduceEq, if_false, if_true, h3]; exact ih _ _
    by_cases h3 : c = 't'
    · subst h3
      rcases step (lua_pushlstring
          (engineCall (engineCall st (EngineCall.column_bytes s i)) (EngineCall.column_text s i))
          (eng.column_text s i) (eng.column_bytes s i).toNat) with ⟨st2, h5⟩ | h5
      · exact Or.inr (Or.inr ⟨st2,
          by simp only [columns_loop, Char.reduceEq, if_false, if_true, h5]⟩)
      · simp only [columns_loop, Char.reduceEq, if_false, if_true, h5]; exact ih _ _
    by_cases h4 : c = 'b'
    · subst h4
      rcases step (lua_pushlstring
          (engineCall (engineCall st (EngineCall.column_bytes s i)) (EngineCall.column_blob s i))
          (eng.column_blob s i) (eng.column_bytes s i).toNat) with ⟨st2, h5⟩ | h5
      · exact Or.inr (Or.inr ⟨st2,
          by simp only [columns_loop, Char.reduceEq, if_false, if_true, h5]⟩)
      · simp only [columns_loop, Char.reduceEq, if_false, if_true, h5]; exact ih _ _
    · exact Or.inr (Or.inl ⟨c, _, by simp only [columns_loop, if_neg h1, if_neg h2, if_neg h3,
        if_neg h4, lua_error, lua_pushfstring, push, List.headD_cons]; rfl⟩)

/-- The entry of `columns` up to the comparison of the two lengths. -/
theorem columns_entry (rt : Runtime) (eng : Engine) (s : Nat) (tags : String)
    (heap : List LuaTable) (trace : List EngineCall) :
    columns rt eng (enter [LuaValue.userdata UKind.stmt s, LuaValue.string tags] heap trace) =
      if (tags.length : Int) ≠ eng.column_count s then
        Except.error (Raised.value (LuaValue.string
            ("Invalid column count " ++ toString tags.length ++ ", result has " ++
              toString (eng.column_count s) ++ " columns")),
          { stack := [LuaValue.string
                ("Invalid column count " ++ toString tags.length ++ ", result has " ++
                  toString (eng.column_count s) ++ " columns"),
              LuaValue.string tags, LuaValue.userdata UKind.stmt s],
            heap := heap, trace := trace ++ [EngineCall.column_count s] })
      else
        match columns_loop eng s (2 + LUA_MINSTACK) tags.data 0
            { stack := [LuaValue.string tags, LuaValue.userdata UKind.stmt s],
              heap := heap, trace := trace ++ [EngineCall.column_count s] } with
        | Except.error e => Except.error e
        | Except.ok st3 => Except.ok ((tags.length : Int), st3) := by
  have h1 := index2value_first [LuaValue.string tags] (LuaValue.userdata UKind.stmt s) heap trace
  have h2 := index2value_second [] (LuaValue.string tags) (LuaValue.userdata UKind.stmt s)
    heap trace
  simp only [List.nil_append, List.singleton_append] at h1 h2
  simp only [columns, frameLimit_enter_two]
  simp only [enter, List.reverse_cons, List.reverse_nil, List.nil_append,
    List.singleton_append, check_stmt, h1, luaL_checklstring, h2, engineCall, lua_error,
    lua_pushfstring, push, List.headD_cons]

theorem columnTagMsg_ne_columnCountMsg (c : Char) (len : Nat) (ct : Int) :
    "Invalid column tag \x27" ++ cstr (String.singleton c) ++
        "\x27 \x2d\x2d must be in \x27iftb\x27" ≠
      "Invalid column count " ++ toString len ++ ", result has " ++ toString ct ++ " columns" := by
  intro h
  have h1 := congrArg (fun s => s.data.get? 15) h
  simp only [String.data_append] at h1
  simp at h1

/-- A call that ends normally with `rs` on top of the stack returns `rs`. -/
theorem call_returns (f : LuaState → Step Int) (st st1 : LuaState) (n : Int)
    (rs rest : List LuaValue) (hf : f st = Except.ok (n, st1))
    (hs : st1.stack = rs.reverse ++ rest) (hn : n = (rs.length : Int)) :
    call f st = Outcome.returned rs st1 := by
  have h1 : (rs.length : Int) ≤ (rs.length : Int) + (rest.length : Int) := by omega
  simp [call, hf, hs, hn, h1]

/-- The run of `columns` on valid tags of the right length that fit the frame. -/
theorem columns_valid_run (rt : Runtime) (eng : Engine) (s : Nat) (tags : String)
    (heap : List LuaTable) (trace : List EngineCall)
    (hlen : eng.column_count s = (tags.length : Int)) (hcap : tags.length ≤ LUA_MINSTACK)
    (hv : ∀ c ∈ tags.data, c ∈ columnTags) :
    call (columns rt eng)
        (enter [LuaValue.userdata UKind.stmt s, LuaValue.string tags] heap trace) =
      Outcome.returned (tags.data.enum.map (fun p => columnValue eng s p.1 p.2))
        { stack := (tags.data.enum.map (fun p => columnValue eng s p.1 p.2)).reverse ++
            [LuaValue.string tags, LuaValue.userdata UKind.stmt s],
          heap := heap,
          trace := trace ++ [EngineCall.column_count s] ++
            (tags.data.enum.map (fun p => columnCalls s p.1 p.2)).flatten } := by
  have hne : ¬ ((tags.length : Int) ≠ eng.column_count s) := by simp [hlen]
  have hfit : 2 + tags.data.length ≤ 2 + LUA_MINSTACK := by
    have : tags.data.length = tags.length := rfl
    omega
  apply call_returns _ _ _ (tags.length : Int) _ [LuaValue.string tags, LuaValue.userdata UKind.stmt s]
  · rw [columns_entry, if_neg hne, columns_loop_valid eng s _ _ _ _ hv hfit]
    simp [List.enum]
  · rfl
  · simp

/-- The format `%c` of a character other than the zero byte gives that character. -/
theorem cstr_singleton (c : Char) (h : c ≠ Char.ofNat 0) :
    cstr (String.singleton c) = String.singleton c := by
  apply cstr_of_no_zero
  intro hmem
  have h1 : (String.singleton c).data = [c] := rfl
  rw [h1, List.mem_singleton] at hmem
  exact h hmem.symm

/-- C5: `columns` pushes one value per tag without ever calling `lua_checkstack`,
so what the claim says holds up to `LUA_MINSTACK` tags only.  For a statement
with `n` columns and a tag string of length `n`: when `n` is at most
`LUA_MINSTACK` and every tag is one of `i`, `f`, `t`, `b`, `columns` returns
exactly `n` values, the `k`-th being the answer of the int, double, text (with
its byte length) or blob (with its byte length) accessor at column `k` as the
`k`-th tag selects, the accessors being called in column order; when the first
tag outside `iftb` is not a zero byte and at most `LUA_MINSTACK` tags come before
it, `columns` raises `Invalid column tag` followed by that very character in
quotes and by `-- must be in 'iftb'`; when `n` exceeds `LUA_MINSTACK` and the
first `LUA_MINSTACK + 1` tags are valid, the call pushes beyond its frame and
returns nothing defined.  So it is for 21 columns read with 21 tags `i`. -/
theorem columns_pushes_beyond_frame :
    (∀ (rt : Runtime) (eng : Engine) (s : Nat) (tags : String) (heap : List LuaTable)
        (trace : List EngineCall), eng.column_count s = (tags.length : Int) →
      (tags.length ≤ LUA_MINSTACK → (∀ c ∈ tags.data, c ∈ columnTags) →
        (tags.data.enum.map (fun p => columnValue eng s p.1 p.2)).length = tags.length ∧
        call (columns rt eng)
            (enter [LuaValue.userdata UKind.stmt s, LuaValue.string tags] heap trace) =
          Outcome.returned (tags.data.enum.map (fun p => columnValue eng s p.1 p.2))
            { stack := (tags.data.enum.map (fun p => columnValue eng s p.1 p.2)).reverse ++
                [LuaValue.string tags, LuaValue.userdata UKind.stmt s],
              heap := heap,
              trace := trace ++ [EngineCall.column_count s] ++
                (tags.data.enum.map (fun p => columnCalls s p.1 p.2)).flatten }) ∧
      (∀ (pre : List Char) (c : Char) (post : List Char), tags.data = pre ++ c :: post →
        pre.length ≤ LUA_MINSTACK → (∀ d ∈ pre, d ∈ columnTags) → c ∉ columnTags →
        c ≠ Char.ofNat 0 →
        (call (columns rt eng)
            (enter [LuaValue.userdata UKind.stmt s, LuaValue.string tags] heap trace)).error =
          some (Raised.value (LuaValue.string
            ("Invalid column tag \x27" ++ String.singleton c ++
              "\x27 \x2d\x2d must be in \x27iftb\x27")))) ∧
      (LUA_MINSTACK < tags.length →
        (∀ c ∈ tags.data.take (LUA_MINSTACK + 1), c ∈ columnTags) →
        ∃ st1, call (columns rt eng)
            (enter [LuaValue.userdata UKind.stmt s, LuaValue.string tags] heap trace) =
          Outcome.undefined st1)) ∧
    ((refEngine decimalConv demoWide).column_count 0 = (demoWideTags.length : Int) ∧
      demoWideTags.length = 21 ∧ (∀ c ∈ demoWideTags.data, c ∈ columnTags) ∧
      call (columns refRuntime (refEngine decimalConv demoWide))
          (enter [LuaValue.userdata UKind.stmt 0, LuaValue.string demoWideTags] [] []) =
        Outcome.undefined
          { stack := List.replicate 21 (LuaValue.number 0) ++
              [LuaValue.string demoWideTags, LuaValue.userdata UKind.stmt 0],
            heap := [],
            trace := EngineCall.column_count 0 ::
              (List.range 21).map (fun i => EngineCall.column_int 0 i) }) := by
  refine ⟨fun rt eng s tags heap trace hlen => ⟨?_, ?_, ?_⟩, ?_⟩
  · intro hcap hv
    exact ⟨by simp, columns_valid_run rt eng s tags heap trace hlen hcap hv⟩
  · intro pre c post hsplit hcap hpre hc hc0
    have hne : ¬ ((tags.length : Int) ≠ eng.column_count s) := by simp [hlen]
    obtain ⟨st1, h1⟩ := columns_loop_invalid eng s (2 + LUA_MINSTACK) c post hc pre 0
      { stack := [LuaValue.string tags, LuaValue.userdata UKind.stmt s],
        heap := heap, trace := trace ++ [EngineCall.column_count s] } hpre
      (by simp only [List.length_cons, List.length_nil]; omega)
    rw [cstr_singleton c hc0] at h1
    simp [call, columns_entry, hne, hsplit, h1, Outcome.error]
  · intro hcap hv
    have hne : ¬ ((tags.length : Int) ≠ eng.column_count s) := by simp [hlen]
    have hdata : tags.data.length = tags.length := rfl
    obtain ⟨st1, h1⟩ := columns_loop_overrun eng s (2 + LUA_MINSTACK) tags.data 0
      { stack := [LuaValue.string tags, LuaValue.userdata UKind.stmt s],
        heap := heap, trace := trace ++ [EngineCall.column_count s] }
      (by simp only [List.length_cons, List.length_nil]; omega)
      (by simp only [List.length_cons, List.length_nil]; omega)
      (by
        have h2 : 2 + LUA_MINSTACK + 1 - 2 = LUA_MINSTACK + 1 := by omega
        simpa only [List.length_cons, List.length_nil, h2] using hv)
    exact ⟨st1, by simp [call, columns_entry, hne, h1]⟩
  · decide

/-- Concrete runs: a row `(7, "x")` read with the tags `it`, and with the tags `ix`. -/
theorem columns_pushes_beyond_frame_witness :
    (refEngine decimalConv demoRow).column_count 0 = (("it" : String).length : Int) ∧
    (call (columns refRuntime (refEngine decimalConv demoRow))
      (enter [LuaValue.userdata UKind.stmt 0, LuaValue.string "it"] [] [])).results =
      some [LuaValue.number 7, LuaValue.string "x"] ∧
    (call (columns refRuntime (refEngine decimalConv demoRow))
      (enter [LuaValue.userdata UKind.stmt 0, LuaValue.string "ix"] [] [])).error =
      some (Raised.value (LuaValue.string
        "Invalid column tag \x27x\x27 \x2d\x2d must be in \x27iftb\x27")) ∧
    (call (columns refRuntime (refEngine decimalConv demoWide))
      (enter [LuaValue.userdata UKind.stmt 0, LuaValue.string demoWideTags] [] [])).results =
      none := by
  refine ⟨by decide, ?_, ?_, ?_⟩
  · have h := ((columns_pushes_beyond_frame.1 refRuntime (refEngine decimalConv demoRow) 0 "it"
      [] [] (by decide)).1 (by decide) (by decide)).2
    rw [h]
    decide
  · exact (columns_pushes_beyond_frame.1 refRuntime (refEngine decimalConv demoRow) 0 "ix" [] []
      (by decide)).2.1 ['i'] 'x' [] (by decide) (by decide) (by decide) (by decide) (by decide)
  · obtain ⟨st1, h⟩ := (columns_pushes_beyond_frame.1 refRuntime (refEngine decimalConv demoWide)
      0 demoWideTags [] [] (by decide)).2.2 (by decide) (by decide)
    rw [h]
    rfl

/-- C6: when the length of the tag string differs from the column count of the
statement, `columns` raises the error `Invalid column count L, result has C
columns`, where `L` is the length of the tag string and `C` the column count,
both in decimal, and the only engine call made is the column count (no column
accessor); when the two are equal, no error of that form is raised, whatever
numbers it would hold. -/
theorem columns_count_mismatch (rt : Runtime) (eng : Engine) (s : Nat) (tags : String)
    (heap : List LuaTable) (trace : List EngineCall) :
    ((tags.length : Int) ≠ eng.column_count s →
      call (columns rt eng)
          (enter [LuaValue.userdata UKind.stmt s, LuaValue.string tags] heap trace) =
        Outcome.raised
          (Raised.value (LuaValue.string
            ("Invalid column count " ++ toString tags.length ++ ", result has " ++
              toString (eng.column_count s) ++ " columns")))
          { stack := [LuaValue.string
                ("Invalid column count " ++ toString tags.length ++ ", result has " ++
                  toString (eng.column_count s) ++ " columns"),
              LuaValue.string tags, LuaValue.userdata UKind.stmt s],
            heap := heap, trace := trace ++ [EngineCall.column_count s] }) ∧
    ((tags.length : Int) = eng.column_count s →
      ∀ (len : Nat) (ct : Int),
        (call (columns rt eng)
          (enter [LuaValue.userdata UKind.stmt s, LuaValue.string tags] heap trace)).error ≠
        some (Raised.value (LuaValue.string
          ("Invalid column count " ++ toString len ++ ", result has " ++ toString ct ++
            " columns")))) := by
  constructor
  · intro hne
    simp [call, columns_entry, hne]
  · intro heq len ct
    have hne : ¬ ((tags.length : Int) ≠ eng.column_count s) := by simp [heq]
    rcases columns_loop_total eng s (2 + LUA_MINSTACK) tags.data 0
      { stack := [LuaValue.string tags, LuaValue.userdata UKind.stmt s],
        heap := heap, trace := trace ++ [EngineCall.column_count s] } with
      ⟨st1, h1⟩ | ⟨c, st1, h1⟩ | ⟨st1, h1⟩
    · simp only [call, columns_entry, if_neg hne, h1]
      split <;> simp [Outcome.error]
    · simp only [call, columns_entry, if_neg hne, h1, Outcome.error]
      simpa using columnTagMsg_ne_columnCountMsg c len ct
    · simp [call, columns_entry, hne, h1, Outcome.error]

/-- Concrete runs: a row of two columns read with one tag, and with two tags. -/
theorem columns_count_mismatch_witness :
    ((("i" : String).length : Int) ≠ (refEngine decimalConv demoRow).column_count 0) ∧
    (call (columns refRuntime (refEngine decimalConv demoRow))
      (enter [LuaValue.userdata UKind.stmt 0, LuaValue.string "i"] [] [])).error =
      some (Raised.value (LuaValue.string "Invalid column count 1, result has 2 columns")) ∧
    (call (columns refRuntime (refEngine decimalConv demoRow))
      (enter [LuaValue.userdata UKind.stmt 0, LuaValue.string "i"] [] [])).state.trace =
      [EngineCall.column_count 0] ∧
    (call (columns refRuntime (refEngine decimalConv demoRow))
      (enter [LuaValue.userdata UKind.stmt 0, LuaValue.string "it"] [] [])).error ≠
      some (Raised.value (LuaValue.string "Invalid column count 2, result has 2 columns")) := by
  have h := (columns_count_mismatch refRuntime (refEngine decimalConv demoRow) 0 "i" [] []).1
    (by decide)
  refine ⟨by decide, ?_, ?_, ?_⟩
  · rw [h]; decide
  · rw [h]; decide
  · exact (columns_count_mismatch refRuntime (refEngine decimalConv demoRow) 0 "it" [] []).2
      (by decide) 2 2

/-! ### The scalar type rule `bind_dtype` -/

/-- The `switch` of `bind_dtype` on the value on top of the stack: one bind call
for nil, boolean, number and string, the error `Cannot bind type` and no engine
call for every other type. -/
theorem bind_dtype_scalar (rt : Runtime) (eng : Engine) (s : Nat) (idx : Int) (v : LuaValue)
    (rest : List LuaValue) (heap : List LuaTable) (trace : List EngineCall) :
    bind_dtype rt eng s { stack := v :: rest, heap := heap, trace := trace } idx =
      match scalarBind rt s idx v with
      | some c => Except.ok (1,
          { stack := LuaValue.string (resName (eng.bind_result c)) :: v :: rest,
            heap := heap, trace := trace ++ [c] })
      | none => Except.error (Raised.value (LuaValue.string "Cannot bind type"),
          { stack := LuaValue.string "Cannot bind type" :: v :: rest,
            heap := heap, trace := trace }) := by
  cases v <;>
    simp [bind_dtype, lua_type, typeOf, scalarBind, issueBind, pushres, lua_pushstring, push,
      engineCall, lua_tointeger, lua_tonumber, tonumber, luaL_checklstring, LERROR, lua_error]

/-- C1 (failing input): the `switch` of `bind_dtype` on the value on top of the
stack.  A nil issues `sqlite3_bind_null`, a number `sqlite3_bind_double` with the
same value, a string `sqlite3_bind_text` with its bytes, its length and
`SQLITE_TRANSIENT`, a table, function, userdata or thread raises
`Cannot bind type` without an engine call.  A boolean issues `sqlite3_bind_int`
with the integer `lua_tointeger` yields for it, which is 0 for `false` and also
for `true`: `s:bind(1, true)` issues `sqlite3_bind_int(s, 1, 0)`. -/
theorem bind_dtype_boolean_binds_zero :
    (∀ (rt : Runtime) (eng : Engine) (s : Nat) (idx : Int) (rest : List LuaValue)
        (heap : List LuaTable) (trace : List EngineCall),
      bind_dtype rt eng s { stack := LuaValue.nil :: rest, heap := heap, trace := trace } idx =
        Except.ok (1,
          { stack := LuaValue.string (resName (eng.bind_result (EngineCall.bind_null s idx))) ::
              LuaValue.nil :: rest,
            heap := heap, trace := trace ++ [EngineCall.bind_null s idx] }) ∧
      (∀ b : Bool,
        bind_dtype rt eng s
            { stack := LuaValue.boolean b :: rest, heap := heap, trace := trace } idx =
          Except.ok (1,
            { stack := LuaValue.string (resName (eng.bind_result (EngineCall.bind_int s idx 0))) ::
                LuaValue.boolean b :: rest,
              heap := heap, trace := trace ++ [EngineCall.bind_int s idx 0] })) ∧
      (∀ x : LuaNumber,
        bind_dtype rt eng s
            { stack := LuaValue.number x :: rest, heap := heap, trace := trace } idx =
          Except.ok (1,
            { stack :=
                LuaValue.string (resName (eng.bind_result (EngineCall.bind_double s idx x))) ::
                LuaValue.number x :: rest,
              heap := heap, trace := trace ++ [EngineCall.bind_double s idx x] })) ∧
      (∀ v : String,
        bind_dtype rt eng s
            { stack := LuaValue.string v :: rest, heap := heap, trace := trace } idx =
          Except.ok (1,
            { stack :=
                LuaValue.string (resName (eng.bind_result
                  (EngineCall.bind_text s idx v v.length Destructor.transient))) ::
                LuaValue.string v :: rest,
              heap := heap,
              trace := trace ++ [EngineCall.bind_text s idx v v.length Destructor.transient] })) ∧
      (∀ (r : Nat) (k : UKind),
        bind_dtype rt eng s
            { stack := LuaValue.table r :: rest, heap := heap, trace := trace } idx =
          Except.error (Raised.value (LuaValue.string "Cannot bind type"),
            { stack := LuaValue.string "Cannot bind type" :: LuaValue.table r :: rest,
              heap := heap, trace := trace }) ∧
        bind_dtype rt eng s
            { stack := LuaValue.function r :: rest, heap := heap, trace := trace } idx =
          Except.error (Raised.value (LuaValue.string "Cannot bind type"),
            { stack := LuaValue.string "Cannot bind type" :: LuaValue.function r :: rest,
              heap := heap, trace := trace }) ∧
        bind_dtype rt eng s
            { stack := LuaValue.userdata k r :: rest, heap := heap, trace := trace } idx =
          Except.error (Raised.value (LuaValue.string "Cannot bind type"),
            { stack := LuaValue.string "Cannot bind type" :: LuaValue.userdata k r :: rest,
              heap := heap, trace := trace }) ∧
        bind_dtype rt eng s
            { stack := LuaValue.thread r :: rest, heap := heap, trace := trace } idx =
          Except.error (Raised.value (LuaValue.string "Cannot bind type"),
            { stack := LuaValue.string "Cannot bind type" :: LuaValue.thread r :: rest,
              heap := heap, trace := trace }))) ∧
    call (bind refRuntime (refEngine decimalConv (StmtModel.fresh [""])))
        (enter [LuaValue.userdata UKind.stmt 0, LuaValue.number 1, LuaValue.boolean true] [] []) =
      Outcome.returned [LuaValue.string "ok"]
        { stack := [LuaValue.string "ok", LuaValue.boolean true, LuaValue.number 1,
            LuaValue.userdata UKind.stmt 0],
          heap := [], trace := [EngineCall.bind_int 0 1 0] } := by
  refine ⟨fun rt eng s idx rest heap trace => ⟨?_, ?_, ?_, ?_, ?_⟩, by decide⟩
  · simp [bind_dtype_scalar, scalarBind]
  · intro b
    simp [bind_dtype_scalar, scalarBind, tointeger, tonumber, toCInt]
  · intro x
    simp [bind_dtype_scalar, scalarBind]
  · intro v
    simp [bind_dtype_scalar, scalarBind, SQLITE_TRANSIENT]
  · intro r k
    simp [bind_dtype_scalar, scalarBind]

/-! ### Parameter resolution of the scalar binds -/

/-- C3 (failing input): a numeric key is used as the index as it is
(`s:bind(2, 5)` binds at index 2 without a lookup).  On `SELECT :name, :count`
the name `:nope` is no parameter; `bind`, `bind_int`, `bind_double`, `bind_null`
and `bind_text` each look the name up, receive index 0, issue the bind at index
0 and return the outcome `range` of the engine; none of them raises. -/
theorem scalar_bind_unknown_name_no_error :
    (call (bind refRuntime (refEngine decimalConv demoNamed))
        (enter [LuaValue.userdata UKind.stmt 0, LuaValue.number 2, LuaValue.number 5]
          [] [])).state.trace = [EngineCall.bind_double 0 2 5] ∧
    call (bind refRuntime (refEngine decimalConv demoNamed))
        (enter [LuaValue.userdata UKind.stmt 0, LuaValue.string ":nope", LuaValue.number 5]
          [] []) =
      Outcome.returned [LuaValue.string "range"]
        { stack := [LuaValue.string "range", LuaValue.number 5, LuaValue.string ":nope",
            LuaValue.userdata UKind.stmt 0],
          heap := [],
          trace := [EngineCall.bind_parameter_index 0 ":nope", EngineCall.bind_double 0 0 5] } ∧
    call (bind_int refRuntime (refEngine decimalConv demoNamed))
        (enter [LuaValue.userdata UKind.stmt 0, LuaValue.string ":nope", LuaValue.number 5]
          [] []) =
      Outcome.returned [LuaValue.string "range"]
        { stack := [LuaValue.string "range", LuaValue.number 5, LuaValue.string ":nope",
            LuaValue.userdata UKind.stmt 0],
          heap := [],
          trace := [EngineCall.bind_parameter_index 0 ":nope", EngineCall.bind_int 0 0 5] } ∧
    call (bind_double refRuntime (refEngine decimalConv demoNamed))
        (enter [LuaValue.userdata UKind.stmt 0, LuaValue.string ":nope", LuaValue.number 5]
          [] []) =
      Outcome.returned [LuaValue.string "range"]
        { stack := [LuaValue.string "range", LuaValue.number 5, LuaValue.string ":nope",
            LuaValue.userdata UKind.stmt 0],
          heap := [],
          trace := [EngineCall.bind_parameter_index 0 ":nope", EngineCall.bind_double 0 0 5] } ∧
    call (bind_null refRuntime (refEngine decimalConv demoNamed))
        (enter [LuaValue.userdata UKind.stmt 0, LuaValue.string ":nope"] [] []) =
      Outcome.returned [LuaValue.string "range"]
        { stack := [LuaValue.string "range", LuaValue.string ":nope",
            LuaValue.userdata UKind.stmt 0],
          heap := [],
          trace := [EngineCall.bind_parameter_index 0 ":nope", EngineCall.bind_null 0 0] } ∧
    call (bind_text refRuntime (refEngine decimalConv demoNamed))
        (enter [LuaValue.userdata UKind.stmt 0, LuaValue.string ":nope", LuaValue.string "x"]
          [] []) =
      Outcome.returned [LuaValue.string "range"]
        { stack := [LuaValue.string "range", LuaValue.string "x", LuaValue.string ":nope",
            LuaValue.userdata UKind.stmt 0],
          heap := [],
          trace := [EngineCall.bind_parameter_index 0 ":nope",
            EngineCall.bind_text 0 0 "x" 1 Destructor.transient] } := by
  decide

/-! ### `bind_param_count` and `bind_param_index` -/

/-- C10 (failing input): `bind_param_count` and `bind_param_idx` push nothing and
hand the engine's integer to Lua as their number of results.  On a statement
without parameters `bind_param_count` returns no value, on a statement with one
parameter it returns the statement object, with two parameters it reads below
its own frame; `bind_param_index` returns no value for a name that is no
parameter and the name itself for the first parameter. -/
theorem bind_param_count_returns_no_integer :
    (∀ (eng : Engine) (s : Nat) (heap : List LuaTable) (trace : List EngineCall),
      bind_param_count eng (enter [LuaValue.userdata UKind.stmt s] heap trace) =
        Except.ok (eng.bind_parameter_count s,
          { stack := [LuaValue.userdata UKind.stmt s], heap := heap,
            trace := trace ++ [EngineCall.bind_parameter_count s] })) ∧
    (∀ (rt : Runtime) (eng : Engine) (s : Nat) (name : String) (heap : List LuaTable)
        (trace : List EngineCall),
      bind_param_idx rt eng
          (enter [LuaValue.userdata UKind.stmt s, LuaValue.string name] heap trace) =
        Except.ok (eng.bind_parameter_index s name,
          { stack := [LuaValue.string name, LuaValue.userdata UKind.stmt s], heap := heap,
            trace := trace ++ [EngineCall.bind_parameter_index s name] })) ∧
    call (bind_param_count (refEngine decimalConv (StmtModel.fresh [])))
        (enter [LuaValue.userdata UKind.stmt 0] [] []) =
      Outcome.returned []
        { stack := [LuaValue.userdata UKind.stmt 0], heap := [],
          trace := [EngineCall.bind_parameter_count 0] } ∧
    (call (bind_param_count (refEngine decimalConv (StmtModel.fresh [":a"])))
        (enter [LuaValue.userdata UKind.stmt 0] [] [])).results =
      some [LuaValue.userdata UKind.stmt 0] ∧
    (call (bind_param_count (refEngine decimalConv demoNamed))
        (enter [LuaValue.userdata UKind.stmt 0] [] [])).results = none ∧
    (call (bind_param_idx refRuntime (refEngine decimalConv demoNamed))
        (enter [LuaValue.userdata UKind.stmt 0, LuaValue.string ":nope"] [] [])).results =
      some [] ∧
    (call (bind_param_idx refRuntime (refEngine decimalConv demoNamed))
        (enter [LuaValue.userdata UKind.stmt 0, LuaValue.string ":name"] [] [])).results =
      some [LuaValue.string ":name"] := by
  refine ⟨?_, ?_, by decide, by decide, by decide, by decide, by decide⟩
  · intro eng s heap trace
    have h1 := index2value_first [] (LuaValue.userdata UKind.stmt s) heap trace
    simp only [List.nil_append] at h1
    simp [bind_param_count, enter, check_stmt, h1, engineCall]
  · intro rt eng s name heap trace
    have h1 := index2value_first [LuaValue.string name] (LuaValue.userdata UKind.stmt s) heap
      trace
    have h2 := index2value_second [] (LuaValue.string name) (LuaValue.userdata UKind.stmt s)
      heap trace
    simp only [List.nil_append, List.singleton_append] at h1 h2
    simp [bind_param_idx, enter, check_stmt, h1, luaL_checklstring, h2, engineCall]

/-! ### The result-code translation -/

/-- C9: `pushres` is total on the integers (it always pushes exactly one string,
the name chosen by its `switch`); the documented codes are 0 to 26, 100 and 101;
each of them is given a name other than `unknown`, two different documented
codes never share a name, and every other integer is named `unknown`. -/
theorem pushres_total_distinct_unknown :
    (∀ (st : LuaState) (c : Int),
      pushres st c = (1, push st (LuaValue.string (resName c)))) ∧
    resultCodes = (List.range 27).map Int.ofNat ++ [100, 101] ∧
    (∀ c ∈ resultCodes, resName c ≠ "unknown") ∧
    (∀ a ∈ resultCodes, ∀ b ∈ resultCodes, resName a = resName b → a = b) ∧
    (∀ c : Int, c ∉ resultCodes → resName c = "unknown") := by
  refine ⟨fun _ _ => rfl, by decide, by decide, by decide, ?_⟩
  intro c hc
  simp only [resultCodes, SQLITE_OK, SQLITE_ERROR, SQLITE_INTERNAL, SQLITE_PERM, SQLITE_ABORT,
    SQLITE_BUSY, SQLITE_LOCKED, SQLITE_NOMEM, SQLITE_READONLY, SQLITE_INTERRUPT, SQLITE_IOERR,
    SQLITE_CORRUPT, SQLITE_NOTFOUND, SQLITE_FULL, SQLITE_CANTOPEN, SQLITE_PROTOCOL,
    SQLITE_EMPTY, SQLITE_SCHEMA, SQLITE_TOOBIG, SQLITE_CONSTRAINT, SQLITE_MISMATCH,
    SQLITE_MISUSE, SQLITE_NOLFS, SQLITE_AUTH, SQLITE_FORMAT, SQLITE_RANGE, SQLITE_NOTADB,
    SQLITE_ROW, SQLITE_DONE, List.mem_cons, List.mem_singleton, List.not_mem_nil, or_false,
    not_or] at hc
  obtain ⟨h0, h1, h2, h3, h4, h5, h6, h7, h8, h9, h10, h11, h12, h13, h14, h15, h16, h17, h18,
    h19, h20, h21, h22, h23, h24, h25, h26, h100, h101⟩ := hc
  simp only [resName, SQLITE_OK, SQLITE_ERROR, SQLITE_INTERNAL, SQLITE_PERM, SQLITE_ABORT,
    SQLITE_BUSY, SQLITE_LOCKED, SQLITE_NOMEM, SQLITE_READONLY, SQLITE_INTERRUPT, SQLITE_IOERR,
    SQLITE_CORRUPT, SQLITE_NOTFOUND, SQLITE_FULL, SQLITE_CANTOPEN, SQLITE_PROTOCOL,
    SQLITE_EMPTY, SQLITE_SCHEMA, SQLITE_TOOBIG, SQLITE_CONSTRAINT, SQLITE_MISMATCH,
    SQLITE_MISUSE, SQLITE_NOLFS, SQLITE_AUTH, SQLITE_FORMAT, SQLITE_RANGE, SQLITE_NOTADB,
    SQLITE_ROW, SQLITE_DONE, h0, h1, h2, h3, h4, h5, h6, h7, h8, h9, h10, h11, h12, h13, h14,
    h15, h16, h17, h18, h19, h20, h21, h22, h23, h24, h25, h26, h100, h101, if_false]

/-- Concrete codes: 25 is named, 27 and -1 are `unknown`. -/
theorem pushres_total_distinct_unknown_witness :
    resName 25 ≠ "unknown" ∧ (resName 5 = resName 5 → (5 : Int) = 5) ∧
      resName 27 = "unknown" ∧ resName (-1) = "unknown" :=
  ⟨pushres_total_distinct_unknown.2.2.1 25 (by decide),
   pushres_total_distinct_unknown.2.2.2.1 5 (by decide) 5 (by decide),
   pushres_total_distinct_unknown.2.2.2.2 27 (by decide),
   pushres_total_distinct_unknown.2.2.2.2 (-1) (by decide)⟩

/-! ### Bulk binding from a table -/

theorem scalarBind_isSome (rt : Runtime) (s : Nat) (idx : Int) (v : LuaValue)
    (h : bindable v = true) : ∃ c, scalarBind rt s idx v = some c := by
  cases v <;> simp [bindable, scalarBind] at h ⊢

theorem scalarBind_none (rt : Runtime) (s : Nat) (idx : Int) (v : LuaValue)
    (h : bindable v = false) : scalarBind rt s idx v = none := by
  cases v <;> simp [bindable, scalarBind] at h ⊢

/-- Apart from `true`, the `switch` of `bind_dtype` issues the bind of the scalar
type rule. -/
theorem scalarBind_eq_rule (rt : Runtime) (s : Nat) (idx : Int) (v : LuaValue)
    (h : v ≠ LuaValue.boolean true) : scalarBind rt s idx v = specScalarRule s idx v := by
  cases v with
  | boolean b =>
    cases b with
    | true => exact absurd rfl h
    | false => simp [scalarBind, specScalarRule, tointeger, tonumber, toCInt]
  | _ => rfl

theorem specScalarRule_isSome (s : Nat) (idx : Int) (v : LuaValue)
    (h : bindable v = true) : ∃ c, specScalarRule s idx v = some c := by
  cases v <;> simp [bindable, specScalarRule] at h ⊢

theorem specScalarRule_none (s : Nat) (idx : Int) (v : LuaValue)
    (h : bindable v = false) : specScalarRule s idx v = none := by
  cases v <;> simp [bindable, specScalarRule] at h ⊢

/-- One round of the key/value loop whose lookup succeeds and whose value is
bindable. -/
theorem bind_table_pairs_cons (rt : Runtime) (eng : Engine) (s : Nat) (k v : LuaValue)
    (es : List (LuaValue × LuaValue)) (top : LuaValue) (base : List LuaValue)
    (heap : List LuaTable) (trace : List EngineCall) (h : pairBinds rt eng s (k, v)) :
    bind_table_pairs rt eng s ((k, v) :: es) { stack := top :: base, heap := heap, trace := trace } =
      bind_table_pairs rt eng s es
        { stack := k :: base, heap := heap, trace := trace ++ pairCalls rt eng s (k, v) } := by
  obtain ⟨hk, hz, hv, ht, hf⟩ := h
  obtain ⟨ks, hks⟩ := Option.isSome_iff_exists.mp hk
  obtain ⟨c, hc⟩ := specScalarRule_isSome s (eng.bind_parameter_index s (paramName rt k)) v hv
  change tostring rt k = some ks at hks
  change v ≠ LuaValue.boolean true at ht
  simp only [paramName, hks, Option.getD_some] at hf hc hz
  have hcs : cstr (":" ++ ks) = ":" ++ ks := cstr_of_no_zero _ hz
  have hcolon : readBytes (some ":") 1 = ":" := by decide
  have hts : tostring rt (LuaValue.string ":") = some ":" := rfl
  have hts2 : tostring rt (LuaValue.string (":" ++ ks)) = some (":" ++ ks) := rfl
  simp only [bind_table_pairs, lua_pop, push, lua_pushlstring, lua_pushvalue, List.drop_succ_cons,
    List.drop_zero, hcolon, index2value_third, Option.getD_some, lua_concat2, hts, hks,
    lua_tostring, index2value_top, hts2, hcs, engineCall, if_neg hf, bind_dtype_scalar,
    scalarBind_eq_rule rt s _ v ht, hc, pairCalls,
    paramName, Option.toList, List.append_assoc, List.singleton_append]

/-- A round of the key/value loop whose lookup returns 0 raises the message
naming the parameter, right after the lookup. -/
theorem bind_table_pairs_unknown (rt : Runtime) (eng : Engine) (s : Nat) (k v : LuaValue)
    (es : List (LuaValue × LuaValue)) (top : LuaValue) (base : List LuaValue)
    (heap : List LuaTable) (trace : List EngineCall) (hk : (tostring rt k).isSome = true)
    (hz : Char.ofNat 0 ∉ (paramName rt k).data)
    (hf : eng.bind_parameter_index s (paramName rt k) = 0) :
    bind_table_pairs rt eng s ((k, v) :: es) { stack := top :: base, heap := heap, trace := trace } =
      Except.error (Raised.value (LuaValue.string
          ("Invalid statement parameter \x27" ++ paramName rt k ++ "\x27")),
        { stack := LuaValue.string
              ("Invalid statement parameter \x27" ++ paramName rt k ++ "\x27") ::
            LuaValue.string (paramName rt k) :: v :: k :: base,
          heap := heap,
          trace := trace ++ [EngineCall.bind_parameter_index s (paramName rt k)] }) := by
  obtain ⟨ks, hks⟩ := Option.isSome_iff_exists.mp hk
  simp only [paramName, hks, Option.getD_some] at hf hz ⊢
  have hcs : cstr (":" ++ ks) = ":" ++ ks := cstr_of_no_zero _ hz
  have hcolon : readBytes (some ":") 1 = ":" := by decide
  have hts : tostring rt (LuaValue.string ":") = some ":" := rfl
  have hts2 : tostring rt (LuaValue.string (":" ++ ks)) = some (":" ++ ks) := rfl
  simp only [bind_table_pairs, lua_pop, push, lua_pushlstring, lua_pushvalue, List.drop_succ_cons,
    List.drop_zero, hcolon, index2value_third, Option.getD_some, lua_concat2, hts, hks,
    lua_tostring, index2value_top, hts2, hcs, engineCall, hf, if_true, lua_error, lua_pushfstring,
    List.headD_cons]

/-- The key/value loop over entries that all bind. -/
theorem bind_table_pairs_all (rt : Runtime) (eng : Engine) (s : Nat) :
    ∀ (es : List (LuaValue × LuaValue)) (top : LuaValue) (base : List LuaValue)
      (heap : List LuaTable) (trace : List EngineCall), (∀ e ∈ es, pairBinds rt eng s e) →
      bind_table_pairs rt eng s es { stack := top :: base, heap := heap, trace := trace } =
        Except.ok
          { stack := base, heap := heap,
            trace := trace ++ (es.map (pairCalls rt eng s)).flatten } := by
  intro es
  induction es with
  | nil => intro top base heap trace _; simp [bind_table_pairs, lua_pop]
  | cons e es ih =>
    intro top base heap trace h
    obtain ⟨k, v⟩ := e
    rw [bind_table_pairs_cons rt eng s k v es top base heap trace (h _ (List.mem_cons_self _ _)),
      ih k base heap _ (fun e he => h e (List.mem_cons_of_mem _ he))]
    simp

/-- The key/value loop stops at the first key whose lookup returns 0. -/
theorem bind_table_pairs_stops (rt : Runtime) (eng : Engine) (s : Nat) (k v : LuaValue)
    (post : List (LuaValue × LuaValue)) (hk : (tostring rt k).isSome = true)
    (hz : Char.ofNat 0 ∉ (paramName rt k).data)
    (hf : eng.bind_parameter_index s (paramName rt k) = 0) :
    ∀ (pre : List (LuaValue × LuaValue)) (top : LuaValue) (base : List LuaValue)
      (heap : List LuaTable) (trace : List EngineCall), (∀ e ∈ pre, pairBinds rt eng s e) →
      ∃ stack, bind_table_pairs rt eng s (pre ++ (k, v) :: post)
          { stack := top :: base, heap := heap, trace := trace } =
        Except.error (Raised.value (LuaValue.string
            ("Invalid statement parameter \x27" ++ paramName rt k ++ "\x27")),
          { stack := stack, heap := heap,
            trace := trace ++ (pre.map (pairCalls rt eng s)).flatten ++
              [EngineCall.bind_parameter_index s (paramName rt k)] }) := by
  intro pre
  induction pre with
  | nil =>
    intro top base heap trace _
    exact ⟨_, by
      simpa using bind_table_pairs_unknown rt eng s k v post top base heap trace hk hz hf⟩
  | cons e pre ih =>
    intro top base heap trace h
    obtain ⟨k1, v1⟩ := e
    obtain ⟨stack, hst⟩ := ih k1 base heap (trace ++ pairCalls rt eng s (k1, v1))
      (fun e he => h e (List.mem_cons_of_mem _ he))
    refine ⟨stack, ?_⟩
    rw [List.cons_append,
      bind_table_pairs_cons rt eng s k1 v1 _ top base heap trace (h _ (List.mem_cons_self _ _)),
      hst]
    simp

/-- The entry of `bind` for a table argument. -/
theorem bind_table_entry (rt : Runtime) (eng : Engine) (s ref : Nat) (heap : List LuaTable)
    (trace : List EngineCall) :
    bind rt eng (enter [LuaValue.userdata UKind.stmt s, LuaValue.table ref] heap trace) =
      bind_table rt eng (enter [LuaValue.userdata UKind.stmt s, LuaValue.table ref] heap trace)
        s ∧
    lua_objlen rt (enter [LuaValue.userdata UKind.stmt s, LuaValue.table ref] heap trace) 2 =
      rt.objlen (heap.getD ref []) ∧
    tableAt (enter [LuaValue.userdata UKind.stmt s, LuaValue.table ref] heap trace) 2 =
      heap.getD ref [] := by
  have h1 := index2value_first [LuaValue.table ref] (LuaValue.userdata UKind.stmt s) heap trace
  have h2 := index2value_second [] (LuaValue.table ref) (LuaValue.userdata UKind.stmt s)
    heap trace
  simp only [List.nil_append, List.singleton_append] at h1 h2
  simp [bind, enter, check_stmt, h1, lua_type, h2, typeOf, lua_objlen, tableAt]

/-- C2 (amended): for a table of sequence length 0 passed to `bind`: if every
entry has a string or number key whose name (`:` followed by the key) holds no
zero byte and is a parameter, and a value that is nil, `false`, a number or a
string, then for each entry in traversal order the name is looked up and the
value is bound, by the scalar type rule, at the index the engine returned; if
the entries before some key do so and the lookup of that key, again a string or
a number without a zero byte, returns 0, then the call raises the error
`Invalid statement parameter` followed by `:` and the key in quotes, the lookup
is the last engine call, and only the entries before it have been bound. -/
theorem bind_table_named_fail_fast (rt : Runtime) (eng : Engine) (s ref : Nat)
    (heap : List LuaTable) (trace : List EngineCall) (hlen : rt.objlen (heap.getD ref []) = 0) :
    ((∀ e ∈ heap.getD ref [], pairBinds rt eng s e) →
      call (bind rt eng)
          (enter [LuaValue.userdata UKind.stmt s, LuaValue.table ref] heap trace) =
        Outcome.returned [LuaValue.table ref]
          { stack := [LuaValue.table ref, LuaValue.userdata UKind.stmt s], heap := heap,
            trace := trace ++ ((heap.getD ref []).map (pairCalls rt eng s)).flatten }) ∧
    (∀ (pre : List (LuaValue × LuaValue)) (k v : LuaValue) (post : List (LuaValue × LuaValue))
        (ks : String),
      heap.getD ref [] = pre ++ (k, v) :: post → (∀ e ∈ pre, pairBinds rt eng s e) →
      tostring rt k = some ks → Char.ofNat 0 ∉ ks.data →
      eng.bind_parameter_index s (":" ++ ks) = 0 →
      ∃ stack, call (bind rt eng)
          (enter [LuaValue.userdata UKind.stmt s, LuaValue.table ref] heap trace) =
        Outcome.raised (Raised.value (LuaValue.string
            ("Invalid statement parameter \x27" ++ (":" ++ ks) ++ "\x27")))
          { stack := stack, heap := heap,
            trace := trace ++ (pre.map (pairCalls rt eng s)).flatten ++
              [EngineCall.bind_parameter_index s (":" ++ ks)] }) := by
  obtain ⟨hb, hl, ht⟩ := bind_table_entry rt eng s ref heap trace
  constructor
  · intro hall
    apply call_returns _ _ _ 1 [LuaValue.table ref] [LuaValue.userdata UKind.stmt s]
    · rw [hb]
      simp only [bind_table, hl, hlen, if_true, ht, lua_pushnil, push]
      simp only [enter, List.reverse_cons, List.reverse_nil, List.nil_append, List.singleton_append]
      rw [bind_table_pairs_all rt eng s _ _ _ _ _ hall]
    · rfl
    · rfl
  · intro pre k v post ks hsplit hpre hks hz0 hf0
    have hname : paramName rt k = ":" ++ ks := by simp [paramName, hks]
    have hk : (tostring rt k).isSome = true := by simp [hks]
    have hz : Char.ofNat 0 ∉ (paramName rt k).data := by
      rw [hname]
      simp only [String.data_append, List.mem_append, not_or]
      exact ⟨by decide, hz0⟩
    have hf : eng.bind_parameter_index s (paramName rt k) = 0 := by rw [hname]; exact hf0
    obtain ⟨stack, hst⟩ := bind_table_pairs_stops rt eng s k v post hk hz hf pre LuaValue.nil
      [LuaValue.table ref, LuaValue.userdata UKind.stmt s] heap trace hpre
    rw [hname] at hst
    refine ⟨stack, ?_⟩
    simp only [call, hb, bind_table, hl, hlen, if_true, ht, lua_pushnil, push]
    simp only [enter, List.reverse_cons, List.reverse_nil, List.nil_append, List.singleton_append,
      hsplit, hst]

/-- Concrete runs on `SELECT :name, :count`: the table `{ name = "foo", count = 3 }`
binds both parameters, the table `{ name = "foo", nope = 3 }` binds `:name` and
raises for `:nope`. -/
theorem bind_table_named_fail_fast_witness :
    refRuntime.objlen ([demoPairs].getD 0 []) = 0 ∧
    call (bind refRuntime (refEngine decimalConv demoNamed))
        (enter [LuaValue.userdata UKind.stmt 0, LuaValue.table 0] [demoPairs] []) =
      Outcome.returned [LuaValue.table 0]
        { stack := [LuaValue.table 0, LuaValue.userdata UKind.stmt 0], heap := [demoPairs],
          trace := [EngineCall.bind_parameter_index 0 ":name",
            EngineCall.bind_text 0 1 "foo" 3 Destructor.transient,
            EngineCall.bind_parameter_index 0 ":count", EngineCall.bind_double 0 2 3] } ∧
    (call (bind refRuntime (refEngine decimalConv demoNamed))
        (enter [LuaValue.userdata UKind.stmt 0, LuaValue.table 0] [demoPairsUnknown] [])).error =
      some (Raised.value (LuaValue.string "Invalid statement parameter \x27:nope\x27")) ∧
    (call (bind refRuntime (refEngine decimalConv demoNamed))
        (enter [LuaValue.userdata UKind.stmt 0, LuaValue.table 0] [demoPairsUnknown]
          [])).state.trace =
      [EngineCall.bind_parameter_index 0 ":name",
        EngineCall.bind_text 0 1 "foo" 3 Destructor.transient,
        EngineCall.bind_parameter_index 0 ":nope"] := by
  have h1 := (bind_table_named_fail_fast refRuntime (refEngine decimalConv demoNamed) 0 0
    [demoPairs] [] (by decide)).1 (by decide)
  obtain ⟨stack, h2⟩ := (bind_table_named_fail_fast refRuntime (refEngine decimalConv demoNamed)
    0 0 [demoPairsUnknown] [] (by decide)).2 [(LuaValue.string "name", LuaValue.string "foo")]
    (LuaValue.string "nope") (LuaValue.number 3) [] "nope" (by decide) (by decide) (by decide)
    (by decide) (by decide)
  refine ⟨by decide, ?_, ?_, ?_⟩
  · rw [h1]; decide
  · rw [h2]; simp only [Outcome.error]; decide
  · rw [h2]; simp only [Outcome.state]; decide

/-- C2 (counterexample): on `SELECT :name, :count` the table `{ name = print }`
has sequence length 0 and its only key is looked up and found at index 1, yet no
value is bound: the call raises `Cannot bind type` right after the lookup.  The
table `{ [true] = 1 }` has sequence length 0 as well, and its key is not looked
up under any name: the concatenation raises.  On `SELECT :a` the table whose
only key is the three bytes `a`, zero, `b` has that key looked up under `:a`,
the bytes before the zero byte, not under `:` followed by the key, which is no
parameter: the value is bound at index 1 and no error is raised. -/
theorem bind_table_named_counterexample :
    refRuntime.objlen demoPairsFunction = 0 ∧
    (refEngine decimalConv demoNamed).bind_parameter_index 0 ":name" = 1 ∧
    call (bind refRuntime (refEngine decimalConv demoNamed))
        (enter [LuaValue.userdata UKind.stmt 0, LuaValue.table 0] [demoPairsFunction] []) =
      Outcome.raised (Raised.value (LuaValue.string "Cannot bind type"))
        { stack := [LuaValue.string "Cannot bind type", LuaValue.function 0,
            LuaValue.string "name", LuaValue.table 0, LuaValue.userdata UKind.stmt 0],
          heap := [demoPairsFunction],
          trace := [EngineCall.bind_parameter_index 0 ":name"] } ∧
    refRuntime.objlen demoPairsBooleanKey = 0 ∧
    call (bind refRuntime (refEngine decimalConv demoNamed))
        (enter [LuaValue.userdata UKind.stmt 0, LuaValue.table 0] [demoPairsBooleanKey] []) =
      Outcome.raised Raised.concat
        { stack := [LuaValue.boolean true, LuaValue.string ":", LuaValue.number 1,
            LuaValue.boolean true, LuaValue.table 0, LuaValue.userdata UKind.stmt 0],
          heap := [demoPairsBooleanKey], trace := [] } ∧
    refRuntime.objlen demoPairsZeroByte = 0 ∧
    (refEngine decimalConv demoOneNamed).bind_parameter_index 0
        (paramName refRuntime (LuaValue.string "a\x00b")) = 0 ∧
    call (bind refRuntime (refEngine decimalConv demoOneNamed))
        (enter [LuaValue.userdata UKind.stmt 0, LuaValue.table 0] [demoPairsZeroByte] []) =
      Outcome.returned [LuaValue.table 0]
        { stack := [LuaValue.table 0, LuaValue.userdata UKind.stmt 0],
          heap := [demoPairsZeroByte],
          trace := [EngineCall.bind_parameter_index 0 ":a", EngineCall.bind_double 0 1 1] } := by
  decide

/-- One round of the array loop of `bind_table` that fits the frame, on a value
other than `true`. -/
theorem bind_table_array_succ (rt : Runtime) (eng : Engine) (s ref limit : Nat) (u : LuaValue)
    (heap : List LuaTable) (n i : Nat) (xs : List LuaValue) (trace : List EngineCall)
    (hfit : xs.length + 4 ≤ limit)
    (hv : arrayValue (heap.getD ref []) i ≠ LuaValue.boolean true) :
    bind_table_array rt eng s limit (n + 1) i
        { stack := xs ++ [LuaValue.table ref, u], heap := heap, trace := trace } =
      match arrayBind s (heap.getD ref []) i with
      | some c => bind_table_array rt eng s limit n (i + 1)
          { stack := (arrayValue (heap.getD ref []) i :: xs) ++ [LuaValue.table ref, u],
            heap := heap, trace := trace ++ [c] }
      | none => Except.error (Raised.value (LuaValue.string "Cannot bind type"),
          { stack := LuaValue.string "Cannot bind type" :: arrayValue (heap.getD ref []) i ::
              (xs ++ [LuaValue.table ref, u]),
            heap := heap, trace := trace }) := by
  have h2 := index2value_second (LuaValue.number (((i : Int) + 1 : Int) : LuaNumber) :: xs)
    (LuaValue.table ref) u heap trace
  simp only [List.cons_append] at h2
  have hf1 : xs.length + 2 + 1 ≤ limit := by omega
  have hf2 : xs.length + 2 + 1 + 1 ≤ limit := by omega
  unfold arrayValue at hv
  simp only [bind_table_array, lua_pushinteger, push, withinFrame, List.length_cons,
    List.length_append, List.length_nil, Nat.zero_add, if_pos hf1, lua_gettable, tableAt, h2,
    bind_dtype_scalar, scalarBind_eq_rule rt s _ _ hv, arrayBind, arrayValue]
  cases specScalarRule s ((i : Int) + 1)
      (tableGet (heap.getD ref []) (LuaValue.number (((i : Int) + 1 : Int) : LuaNumber))) with
  | none => simp [hf2]
  | some c => simp [lua_pop, hf2]

/-- The array loop over positions that all hold bindable values other than
`true`, within the frame. -/
theorem bind_table_array_all (rt : Runtime) (eng : Engine) (s ref limit : Nat) (u : LuaValue)
    (heap : List LuaTable) :
    ∀ (n i : Nat) (xs : List LuaValue) (trace : List EngineCall),
      xs.length + n + 3 ≤ limit →
      (∀ j, i ≤ j → j < i + n → bindable (arrayValue (heap.getD ref []) j) = true ∧
        arrayValue (heap.getD ref []) j ≠ LuaValue.boolean true) →
      ∃ ys, bind_table_array rt eng s limit n i
          { stack := xs ++ [LuaValue.table ref, u], heap := heap, trace := trace } =
        Except.ok
          { stack := ys ++ xs ++ [LuaValue.table ref, u], heap := heap,
            trace := trace ++ (List.range' i n).filterMap (arrayBind s (heap.getD ref [])) } ∧
        ys.length = n := by
  intro n
  induction n with
  | zero => intro i xs trace _ _; exact ⟨[], by simp [bind_table_array], rfl⟩
  | succ n ih =>
    intro i xs trace hcap h
    obtain ⟨hb, ht⟩ := h i (le_refl _) (by omega)
    obtain ⟨c, hc⟩ := specScalarRule_isSome s ((i : Int) + 1) _ hb
    change arrayBind s (heap.getD ref []) i = some c at hc
    obtain ⟨ys, hys, hlen⟩ := ih (i + 1) (arrayValue (heap.getD ref []) i :: xs)
      (trace ++ [c]) (by simp only [List.length_cons]; omega)
      (fun j h1 h2 => h j (by omega) (by omega))
    refine ⟨ys ++ [arrayValue (heap.getD ref []) i], ?_, by simp [hlen]⟩
    rw [bind_table_array_succ rt eng s ref limit u heap n i xs trace (by omega) ht, hc]
    simp only [hys, List.range'_succ, List.filterMap_cons, hc]
    simp

/-- The array loop stops at the first position whose value is not bindable. -/
theorem bind_table_array_stops (rt : Runtime) (eng : Engine) (s ref limit : Nat) (u : LuaValue)
    (heap : List LuaTable) :
    ∀ (n i : Nat) (xs : List LuaValue) (trace : List EngineCall) (j : Nat),
      xs.length + n + 3 ≤ limit → i ≤ j → j < i + n →
      (∀ m, i ≤ m → m < j → bindable (arrayValue (heap.getD ref []) m) = true ∧
        arrayValue (heap.getD ref []) m ≠ LuaValue.boolean true) →
      bindable (arrayValue (heap.getD ref []) j) = false →
      ∃ stack, bind_table_array rt eng s limit n i
          { stack := xs ++ [LuaValue.table ref, u], heap := heap, trace := trace } =
        Except.error (Raised.value (LuaValue.string "Cannot bind type"),
          { stack := stack, heap := heap,
            trace := trace ++
              (List.range' i (j - i)).filterMap (arrayBind s (heap.getD ref [])) }) := by
  intro n
  induction n with
  | zero => intro i xs trace j _ h1 h2; omega
  | succ n ih =>
    intro i xs trace j hcap h1 h2 hpre hj
    by_cases hij : i = j
    · subst hij
      have hnt : arrayValue (heap.getD ref []) i ≠ LuaValue.boolean true := by
        intro h3
        rw [h3] at hj
        exact absurd hj (by decide)
      have hnone : arrayBind s (heap.getD ref []) i = none := specScalarRule_none s _ _ hj
      rw [bind_table_array_succ rt eng s ref limit u heap n i xs trace (by omega) hnt, hnone]
      exact ⟨LuaValue.string "Cannot bind type" :: arrayValue (heap.getD ref []) i ::
        (xs ++ [LuaValue.table ref, u]), by simp⟩
    · obtain ⟨hb, ht⟩ := hpre i (le_refl _) (by omega)
      obtain ⟨c, hc⟩ := specScalarRule_isSome s ((i : Int) + 1) _ hb
      change arrayBind s (heap.getD ref []) i = some c at hc
      obtain ⟨stack, hst⟩ := ih (i + 1) (arrayValue (heap.getD ref []) i :: xs)
        (trace ++ [c]) j (by simp only [List.length_cons]; omega) (by omega) (by omega)
        (fun m h3 h4 => hpre m (by omega) h4) hj
      refine ⟨stack, ?_⟩
      have hji : j - i = (j - (i + 1)) + 1 := by omega
      rw [bind_table_array_succ rt eng s ref limit u heap n i xs trace (by omega) ht, hc]
      simp only [hst, hji, List.range'_succ, List.filterMap_cons, hc]
      simp

theorem filterMap_map_some {α β : Type} (f : α → Option β) :
    ∀ (l : List α), (∀ a ∈ l, (f a).isSome = true) → (l.filterMap f).map some = l.map f := by
  intro l
  induction l with
  | nil => intro _; rfl
  | cons a l ih =>
    intro h
    obtain ⟨b, hb⟩ := Option.isSome_iff_exists.mp (h a (List.mem_cons_self _ _))
    simp [List.filterMap_cons, hb, ih (fun x hx => h x (List.mem_cons_of_mem _ hx))]

theorem arrayBind_isSome (s : Nat) (t : LuaTable) (j : Nat)
    (h : bindable (arrayValue t j) = true) : (arrayBind s t j).isSome = true := by
  obtain ⟨c, hc⟩ := specScalarRule_isSome s ((j : Int) + 1) _ h
  change arrayBind s t j = some c at hc
  simp [hc]

theorem arrayBind_not_lookup (s : Nat) (t : LuaTable) (j : Nat) (c : EngineCall)
    (h : arrayBind s t j = some c) (name : String) :
    c ≠ EngineCall.bind_parameter_index s name := by
  unfold arrayBind at h
  cases hv : arrayValue t j <;>
    rw [hv] at h <;> simp [specScalarRule] at h <;> subst h <;> simp

/-- The frame of `bind` entered with a statement and a table. -/
theorem bind_table_array_entry (rt : Runtime) (eng : Engine) (s ref : Nat)
    (heap : List LuaTable) (trace : List EngineCall) (n : Nat)
    (hlen : rt.objlen (heap.getD ref []) = n) (hn : 0 < n) :
    bind rt eng (enter [LuaValue.userdata UKind.stmt s, LuaValue.table ref] heap trace) =
      match bind_table_array rt eng s (2 + LUA_MINSTACK) n 0
          { stack := [LuaValue.table ref, LuaValue.userdata UKind.stmt s], heap := heap,
            trace := trace } with
      | Except.error e => Except.error e
      | Except.ok st1 => Except.ok (1, st1) := by
  obtain ⟨hb, hl, _⟩ := bind_table_entry rt eng s ref heap trace
  have hn0 : ¬ (n = 0) := by omega
  rw [hb]
  simp only [bind_table, hl, hlen, if_neg hn0, frameLimit_enter_two]
  simp only [enter, List.reverse_cons, List.reverse_nil, List.nil_append, List.singleton_append]

/-- C7 (amended): for a table of sequence length `n`, `0 < n < LUA_MINSTACK`,
passed to `bind`: if the values at the positions 1 to `n` are nil, `false`,
numbers or strings, then the engine calls of the call are exactly one bind per
position `i + 1`, `0 <= i < n`, in increasing order, each the bind the scalar
type rule gives for the value at that position, and none is a parameter-name
lookup; if the value at some position is of a type the rule does not bind and
the values before it are nil, `false`, numbers or strings, then the positions
before it are bound in the same way and the call raises `Cannot bind type`
without a bind at that position or after it. -/
theorem bind_table_array_positions (rt : Runtime) (eng : Engine) (s ref : Nat)
    (heap : List LuaTable) (trace : List EngineCall) (n : Nat)
    (hlen : rt.objlen (heap.getD ref []) = n) (hn : 0 < n) (hcap : n < LUA_MINSTACK) :
    ((∀ j < n, bindable (arrayValue (heap.getD ref []) j) = true ∧
        arrayValue (heap.getD ref []) j ≠ LuaValue.boolean true) →
      ∃ v st1, call (bind rt eng)
          (enter [LuaValue.userdata UKind.stmt s, LuaValue.table ref] heap trace) =
        Outcome.returned [v] st1 ∧
        st1.trace = trace ++ (List.range n).filterMap (arrayBind s (heap.getD ref [])) ∧
        ((List.range n).filterMap (arrayBind s (heap.getD ref []))).map some =
          (List.range n).map (arrayBind s (heap.getD ref [])) ∧
        ∀ c ∈ (List.range n).filterMap (arrayBind s (heap.getD ref [])),
          ∀ name, c ≠ EngineCall.bind_parameter_index s name) ∧
    (∀ j < n, (∀ i < j, bindable (arrayValue (heap.getD ref []) i) = true ∧
        arrayValue (heap.getD ref []) i ≠ LuaValue.boolean true) →
      bindable (arrayValue (heap.getD ref []) j) = false →
      ∃ st1, call (bind rt eng)
          (enter [LuaValue.userdata UKind.stmt s, LuaValue.table ref] heap trace) =
        Outcome.raised (Raised.value (LuaValue.string "Cannot bind type")) st1 ∧
        st1.trace = trace ++ (List.range j).filterMap (arrayBind s (heap.getD ref [])) ∧
        ((List.range j).filterMap (arrayBind s (heap.getD ref []))).map some =
          (List.range j).map (arrayBind s (heap.getD ref []))) := by
  have hb := bind_table_array_entry rt eng s ref heap trace n hlen hn
  have hfit : ([] : List LuaValue).length + n + 3 ≤ 2 + LUA_MINSTACK := by
    simp only [List.length_nil]; omega
  constructor
  · intro hall
    obtain ⟨ys, hys, hylen⟩ := bind_table_array_all rt eng s ref (2 + LUA_MINSTACK)
      (LuaValue.userdata UKind.stmt s) heap n 0 [] trace hfit (fun j _ h2 => hall j (by omega))
    have hys1 : ∃ v zs, ys = v :: zs := by
      cases ys with
      | nil => simp at hylen; omega
      | cons v zs => exact ⟨v, zs, rfl⟩
    obtain ⟨v, zs, hvz⟩ := hys1
    simp only [List.nil_append, List.append_nil] at hys
    refine ⟨v,
      { stack := ys ++ [LuaValue.table ref, LuaValue.userdata UKind.stmt s], heap := heap,
        trace := trace ++ (List.range' 0 n).filterMap (arrayBind s (heap.getD ref [])) },
      call_returns _ _ _ 1 [v] (zs ++ [LuaValue.table ref, LuaValue.userdata UKind.stmt s])
        ?_ ?_ rfl, ?_, ?_, ?_⟩
    · rw [hb, hys]
    · simp [hvz]
    · simp [List.range_eq_range']
    · exact filterMap_map_some _ _
        (fun j hj => arrayBind_isSome s _ j (hall j (List.mem_range.mp hj)).1)
    · intro c hc name
      obtain ⟨j, _, hj⟩ := List.mem_filterMap.mp hc
      exact arrayBind_not_lookup s _ j c hj name
  · intro j hj hpre hnone
    obtain ⟨stack, hst⟩ := bind_table_array_stops rt eng s ref (2 + LUA_MINSTACK)
      (LuaValue.userdata UKind.stmt s) heap n 0 [] trace j hfit (Nat.zero_le _) (by omega)
      (fun m _ h2 => hpre m h2) hnone
    simp only [List.nil_append] at hst
    refine ⟨
      { stack := stack, heap := heap,
        trace := trace ++ (List.range' 0 (j - 0)).filterMap (arrayBind s (heap.getD ref [])) },
      ?_, ?_, ?_⟩
    · simp only [call, hb, hst]
    · simp [List.range_eq_range']
    · exact filterMap_map_some _ _
        (fun i hi => arrayBind_isSome s _ i (hpre i (List.mem_range.mp hi)).1)

/-- Concrete runs on `SELECT ?, ?, ?`: the table `{ 10, 20 }` binds the positions 1
and 2, the table `{ 10, print, 30 }` raises at position 2. -/
theorem bind_table_array_positions_witness :
    refRuntime.objlen ([demoArray].getD 0 []) = 2 ∧ 0 < 2 ∧ 2 < LUA_MINSTACK ∧
    (call (bind refRuntime (refEngine decimalConv demoPositional))
        (enter [LuaValue.userdata UKind.stmt 0, LuaValue.table 0] [demoArray] [])).state.trace =
      [EngineCall.bind_double 0 1 10, EngineCall.bind_double 0 2 20] ∧
    refRuntime.objlen ([demoArrayFunction].getD 0 []) = 3 ∧
    (call (bind refRuntime (refEngine decimalConv demoPositional))
        (enter [LuaValue.userdata UKind.stmt 0, LuaValue.table 0] [demoArrayFunction]
          [])).error = some (Raised.value (LuaValue.string "Cannot bind type")) := by
  obtain ⟨v, st1, h1, h2, _, _⟩ := (bind_table_array_positions refRuntime
    (refEngine decimalConv demoPositional) 0 0 [demoArray] [] 2 (by decide) (by decide)
    (by decide)).1 (by decide)
  obtain ⟨st2, h3, _, _⟩ := (bind_table_array_positions refRuntime
    (refEngine decimalConv demoPositional) 0 0 [demoArrayFunction] [] 3 (by decide)
    (by decide) (by decide)).2 1 (by decide) (by decide) (by decide)
  refine ⟨by decide, by decide, by decide, ?_, by decide, ?_⟩
  · rw [h1]; simp only [Outcome.state, h2]; decide
  · rw [h3]; rfl

/-- C7 (counterexample): the table `{ 10, print, 30 }` has sequence length 3, and
`bind` issues a single engine call for it, the bind of 10 at position 1: at
position 2 it raises `Cannot bind type`, and position 3 is never bound. -/
theorem bind_table_array_counterexample :
    refRuntime.objlen demoArrayFunction = 3 ∧
    call (bind refRuntime (refEngine decimalConv demoPositional))
        (enter [LuaValue.userdata UKind.stmt 0, LuaValue.table 0] [demoArrayFunction] []) =
      Outcome.raised (Raised.value (LuaValue.string "Cannot bind type"))
        { stack := [LuaValue.string "Cannot bind type", LuaValue.function 0, LuaValue.number 10,
            LuaValue.table 0, LuaValue.userdata UKind.stmt 0],
          heap := [demoArrayFunction],
          trace := [EngineCall.bind_double 0 1 10] } := by
  decide

/-- The array loop leaves every value it fetched on the stack.  On the table
`{ 7, 7, ..., 7 }` of 20 elements, with a statement of 20 parameters, the binds
of all 20 positions are issued, and the push of the outcome of the last one goes
beyond the frame of `bind`: the call does not come to a defined end. -/
theorem bind_table_array_overruns :
    refRuntime.objlen demoArrayTwenty = 20 ∧
    call (bind refRuntime (refEngine decimalConv demoTwenty))
        (enter [LuaValue.userdata UKind.stmt 0, LuaValue.table 0] [demoArrayTwenty] []) =
      Outcome.undefined
        { stack := LuaValue.string "ok" :: List.replicate 20 (LuaValue.number 7) ++
            [LuaValue.table 0, LuaValue.userdata UKind.stmt 0],
          heap := [demoArrayTwenty],
          trace := (List.range 20).map (fun i => EngineCall.bind_double 0 ((i : Int) + 1) 7) } := by
  decide

/-! ### The materializer `get_table` -/

theorem tableGet_tableRemove (k k1 : LuaValue) :
    ∀ t : LuaTable, tableGet (tableRemove t k) k1 =
      if k1 = k then LuaValue.nil else tableGet t k1 := by
  intro t
  induction t with
  | nil => simp [tableRemove, tableGet]
  | cons e t ih =>
    obtain ⟨k2, v2⟩ := e
    by_cases h1 : k2 = k
    · by_cases h2 : k1 = k
      · subst h2
        simpa [tableRemove, h1] using ih
      · have h3 : ¬ k = k1 := fun h => h2 h.symm
        simp [tableRemove, tableGet, h1, ih, h2, h3]
    · by_cases h2 : k1 = k
      · subst h2
        simp [tableRemove, tableGet, h1, ih]
      · simp [tableRemove, tableGet, h1, ih, h2]

theorem tableGet_tableInsert (k v k1 : LuaValue) :
    ∀ t : LuaTable, tableGet (tableInsert t k v) k1 = if k1 = k then v else tableGet t k1 := by
  intro t
  induction t with
  | nil =>
    by_cases h2 : k1 = k
    · simp [tableInsert, tableGet, h2]
    · have h3 : ¬ k = k1 := fun h => h2 h.symm
      simp [tableInsert, tableGet, h2, h3]
  | cons e t ih =>
    obtain ⟨k2, v2⟩ := e
    by_cases h1 : k2 = k
    · by_cases h2 : k1 = k
      · simp [tableInsert, tableGet, h1, h2]
      · have h3 : ¬ k = k1 := fun h => h2 h.symm
        simp [tableInsert, tableGet, h1, h2, h3]
    · by_cases h2 : k1 = k
      · subst h2
        simp [tableInsert, tableGet, h1, ih]
      · simp [tableInsert, tableGet, h1, ih, h2]

/-- Reading after writing: the written key reads as the written value, every
other key as before. -/
theorem tableGet_tableSet (t : LuaTable) (k v k1 : LuaValue) :
    tableGet (tableSet t k v) k1 = if k1 = k then v else tableGet t k1 := by
  unfold tableSet
  by_cases hv : v = LuaValue.nil
  · rw [if_pos hv, tableGet_tableRemove, hv]
  · rw [if_neg hv, tableGet_tableInsert]

/-- A key that is none of the written keys reads as before. -/
theorem tableGet_setAll_other (keys vals : Nat → LuaValue) (k : LuaValue) :
    ∀ (n i : Nat) (t : LuaTable), (∀ j, i ≤ j → j < i + n → keys j ≠ k) →
      tableGet (setAll keys vals n i t) k = tableGet t k := by
  intro n
  induction n with
  | zero => intro i t _; rfl
  | succ n ih =>
    intro i t h
    have h1 : ¬ k = keys i := fun e => h i (le_refl _) (by omega) e.symm
    rw [setAll, ih (i + 1) _ (fun j h2 h3 => h j (by omega) (by omega)), tableGet_tableSet,
      if_neg h1]

/-- With pairwise different keys, each written key reads as its value. -/
theorem tableGet_setAll_key (keys vals : Nat → LuaValue)
    (hinj : ∀ a b, keys a = keys b → a = b) :
    ∀ (n i : Nat) (t : LuaTable) (j : Nat), i ≤ j → j < i + n →
      tableGet (setAll keys vals n i t) (keys j) = vals j := by
  intro n
  induction n with
  | zero => intro i t j h1 h2; omega
  | succ n ih =>
    intro i t j h1 h2
    rw [setAll]
    by_cases hij : i = j
    · subst hij
      rw [tableGet_setAll_other keys vals (keys i) n (i + 1) _
        (fun m h3 _ e => by have := hinj _ _ e; omega), tableGet_tableSet, if_pos rfl]
    · exact ih (i + 1) _ j (by omega) (by omega)

theorem luaNumber_intCast_inj (a b : Int) :
    ((a : Int) : LuaNumber) = ((b : Int) : LuaNumber) ↔ a = b := by
  constructor
  · intro h
    have h1 : LuaNumber.finite (a : Rat) = LuaNumber.finite (b : Rat) := h
    simpa using h1
  · intro h
    rw [h]

theorem cellKey_injective : ∀ a b, cellKey a = cellKey b → a = b := by
  intro a b h
  simp only [cellKey, LuaValue.number.injEq, luaNumber_intCast_inj] at h
  omega

theorem rowKey_injective : ∀ a b, rowKey a = rowKey b → a = b := by
  intro a b h
  unfold rowKey at h
  by_cases ha : a = 0 <;> by_cases hb : b = 0 <;> simp [ha, hb, luaNumber_intCast_inj] at h ⊢
  omega

theorem heap_getD_set (heap : List LuaTable) (r : Nat) (x : LuaTable) (h : r < heap.length) :
    (heap.set r x).getD r [] = x := by
  simp [List.getD, List.getElem?_set, h]

theorem heap_set_getD (heap : List LuaTable) (r : Nat) (h : r < heap.length) :
    heap.set r (heap.getD r []) = heap := by
  apply List.ext_getElem?
  intro i
  by_cases hi : r = i
  · subst hi
    simp [List.getElem?_set, h, List.getD, List.getElem?_eq_getElem h]
  · simp [List.getElem?_set, hi]

/-- The loop of `push_cell_table` writes the cells `i`, ..., `i + n - 1` into the
table on top of the stack and leaves the stack as it was. -/
theorem push_cell_loop_heap (cells : Nat → Option String) (r : Nat) (rest : List LuaValue)
    (trace : List EngineCall) :
    ∀ (n i : Nat) (heap : List LuaTable), r < heap.length →
      push_cell_loop cells n i { stack := LuaValue.table r :: rest, heap := heap, trace := trace } =
        { stack := LuaValue.table r :: rest,
          heap := heap.set r (setAll cellKey (fun j => cellValue (cells j)) n i (heap.getD r [])),
          trace := trace } := by
  intro n
  induction n with
  | zero =>
    intro i heap h
    simp only [push_cell_loop, setAll]
    rw [heap_set_getD heap r h]
  | succ n ih =>
    intro i heap h
    have hstep : lua_settable (lua_insert (lua_pushinteger
        (match cells i with
          | none => lua_pushnil
              { stack := LuaValue.table r :: rest, heap := heap, trace := trace }
          | some cell => lua_pushstring
              { stack := LuaValue.table r :: rest, heap := heap, trace := trace } (some cell))
        ((i : Int) + 1)) (-2)) (-3) =
        { stack := LuaValue.table r :: rest,
          heap := heap.set r (tableSet (heap.getD r []) (cellKey i) (cellValue (cells i))),
          trace := trace } := by
      cases cells i <;>
        simp [lua_pushnil, lua_pushstring, push, lua_pushinteger, lua_insert, lua_settable,
          cellKey, cellValue]
    have hlen : r < (heap.set r (tableSet (heap.getD r []) (cellKey i)
        (cellValue (cells i)))).length := by simpa using h
    rw [push_cell_loop]
    simp only [hstep]
    rw [ih (i + 1) _ hlen, heap_getD_set heap r _ h, List.set_set, setAll]

/-- The function `push_cell_table` allocates the row table and fills it. -/
theorem push_cell_table_heap (cells : Nat → Option String) (len : Nat) (stack : List LuaValue)
    (heap : List LuaTable) (trace : List EngineCall) :
    push_cell_table { stack := stack, heap := heap, trace := trace } len cells =
      { stack := LuaValue.table heap.length :: stack,
        heap := heap ++ [setAll cellKey (fun j => cellValue (cells j)) len 0 []],
        trace := trace } := by
  have h : heap.length < (heap ++ [([] : LuaTable)]).length := by simp
  rw [push_cell_table, lua_createtable, push_cell_loop_heap cells heap.length stack trace len 0 _ h]
  simp [List.getD]

theorem heap_append_getD_set (heap : List LuaTable) (T : Nat) (x y : LuaTable)
    (h : T < heap.length) : (heap.set T x ++ [y]).getD T [] = x := by
  have h1 : T < (heap.set T x).length := by simpa using h
  simp only [List.getD_eq_getElem?_getD]
  rw [List.getElem?_append_left h1]
  simp [h]

/-- The row loop of `get_table`: the rows `row`, ..., `row + n - 1` are allocated
one after the other behind the heap and stored in the result table under their
keys. -/
theorem get_table_rows_heap (r : GetTableResult) (T b : Nat) (rest : List LuaValue)
    (trace : List EngineCall) :
    ∀ (n row : Nat) (heap : List LuaTable), T < heap.length → heap.length = b + row →
      get_table_rows r n row { stack := LuaValue.table T :: rest, heap := heap, trace := trace } =
        { stack := LuaValue.table T :: rest,
          heap := heap.set T (setAll rowKey (fun j => LuaValue.table (b + j)) n row
              (heap.getD T [])) ++ (List.range' row n).map (rowTable r),
          trace := trace } := by
  intro n
  induction n with
  | zero =>
    intro row heap hT _
    simp only [get_table_rows, setAll, List.range'_zero, List.map_nil, List.append_nil]
    rw [heap_set_getD heap T hT]
  | succ n ih =>
    intro row heap hT hb
    have hT1 : T < (heap ++ [rowTable r row]).length := by simp; omega
    have hstep : lua_settable (lua_insert
        (if row = 0 then lua_pushstring
            { stack := LuaValue.table heap.length :: LuaValue.table T :: rest,
              heap := heap ++ [rowTable r row], trace := trace } (some "columns")
          else lua_pushinteger
            { stack := LuaValue.table heap.length :: LuaValue.table T :: rest,
              heap := heap ++ [rowTable r row], trace := trace } (row : Int)) (-2)) (-3) =
        { stack := LuaValue.table T :: rest,
          heap := heap.set T (tableSet (heap.getD T []) (rowKey row) (LuaValue.table (b + row))) ++
            [rowTable r row],
          trace := trace } := by
      have hg : ∀ y : LuaTable, (heap ++ [y])[T]? = heap[T]? :=
        fun y => List.getElem?_append_left hT
      have hs : ∀ (y : LuaTable) (x : LuaTable), (heap ++ [y]).set T x = heap.set T x ++ [y] :=
        fun y x => List.set_append_left _ _ hT
      by_cases h0 : row = 0
      · simp [h0, lua_pushstring, push, lua_insert, lua_settable, rowKey, hg, hs, hb]
      · simp [h0, lua_pushinteger, push, lua_insert, lua_settable, rowKey, hg, hs, hb]
    have hlen1 : T < (heap.set T (tableSet (heap.getD T []) (rowKey row)
        (LuaValue.table (b + row))) ++ [rowTable r row]).length := by simp; omega
    have hlen2 : (heap.set T (tableSet (heap.getD T []) (rowKey row)
        (LuaValue.table (b + row))) ++ [rowTable r row]).length = b + (row + 1) := by
      simp; omega
    have hT2 : T < (heap.set T (tableSet (heap.getD T []) (rowKey row)
        (LuaValue.table (b + row)))).length := by simpa using hT
    rw [get_table_rows, push_cell_table_heap]
    simp only [rowTable] at hstep ⊢
    simp only [hstep]
    rw [ih (row + 1) _ (by simpa [rowTable] using hlen1) (by simpa [rowTable] using hlen2)]
    rw [heap_append_getD_set heap T _ _ hT]
    simp only [List.set_append_left _ _ hT2, List.set_set, List.range'_succ, List.map_cons,
      setAll, List.append_assoc, List.singleton_append, rowTable]

/-- The state `get_table` ends in on a successful engine result: the result table
is allocated first, the row tables follow it in row order. -/
theorem get_table_ok (rt : Runtime) (eng : Engine) (db : Nat) (sql : String)
    (heap : List LuaTable) (trace : List EngineCall)
    (hok : (eng.get_table db sql).res = SQLITE_OK) :
    get_table rt eng (enter [LuaValue.userdata UKind.db db, LuaValue.string sql] heap trace) =
      Except.ok (2,
        { stack := [LuaValue.table heap.length, LuaValue.string "ok"],
          heap := heap ++ [setAll rowKey (fun j => LuaValue.table (heap.length + 1 + j))
              ((eng.get_table db sql).nrow + 1) 0 []] ++
            (List.range' 0 ((eng.get_table db sql).nrow + 1)).map (rowTable (eng.get_table db sql)),
          trace := trace ++ [EngineCall.get_table db sql, EngineCall.free_table] }) := by
  have h1 := index2value_first [LuaValue.string sql] (LuaValue.userdata UKind.db db) heap trace
  have h2 := index2value_second [] (LuaValue.string sql) (LuaValue.userdata UKind.db db)
    heap trace
  simp only [List.nil_append, List.singleton_append] at h1 h2
  have hT : heap.length < (heap ++ [([] : LuaTable)]).length := by simp
  have hb : (heap ++ [([] : LuaTable)]).length = heap.length + 1 + 0 := by simp
  have hrows := get_table_rows_heap (eng.get_table db sql) heap.length (heap.length + 1) []
    (trace ++ [EngineCall.get_table db sql]) ((eng.get_table db sql).nrow + 1) 0
    (heap ++ [([] : LuaTable)]) hT hb
  have hg : (heap ++ [([] : LuaTable)]).getD heap.length [] = [] := by simp [List.getD]
  have hs : ∀ x : LuaTable, (heap ++ [([] : LuaTable)]).set heap.length x = heap ++ [x] := by
    intro x
    rw [List.set_append_right _ _ (le_refl _)]
    simp
  rw [hg, hs] at hrows
  have hres : resName (eng.get_table db sql).res = "ok" := by rw [hok]; decide
  have hne : ¬ ((eng.get_table db sql).res ≠ SQLITE_OK) := by simp [hok]
  simp only [get_table, enter, List.reverse_cons, List.reverse_nil, List.nil_append,
    List.singleton_append, check_db, h1, luaL_checklstring, h2, lua_pop, engineCall,
    List.drop_succ_cons, List.drop_zero, if_neg hne, lua_createtable, hrows, pushres,
    lua_pushstring, push, hres, lua_insert]
  simp

/-- C8: on a successful engine result with `nrow` data rows and `ncol` columns,
`get_table` returns the outcome `ok` and a table that holds the header row under
`"columns"` (always, also for `nrow = 0`) with the column names, the cells 0 to
`ncol - 1`, in order, and exactly the data rows 1 to `nrow` under their numbers;
cell `c` (from 1) of data row `r` is the engine cell at flat position
`ncol * r + c - 1`; a NULL cell reads as `nil`, any other cell as its text; the
tables hold nothing else. -/
theorem get_table_structure (rt : Runtime) (eng : Engine) (db : Nat) (sql : String)
    (heap : List LuaTable) (trace : List EngineCall)
    (hok : (eng.get_table db sql).res = SQLITE_OK) :
    ∃ st1, call (get_table rt eng)
        (enter [LuaValue.userdata UKind.db db, LuaValue.string sql] heap trace) =
      Outcome.returned [LuaValue.string "ok", LuaValue.table heap.length] st1 ∧
      st1.trace = trace ++ [EngineCall.get_table db sql, EngineCall.free_table] ∧
      tableGet (st1.heap.getD heap.length []) (LuaValue.string "columns") =
        LuaValue.table (heap.length + 1) ∧
      (∀ c, c < (eng.get_table db sql).ncol →
        tableGet (st1.heap.getD (heap.length + 1) [])
            (LuaValue.number (((c : Int) + 1 : Int) : LuaNumber)) =
          cellValue ((eng.get_table db sql).qres c)) ∧
      (∀ row, 1 ≤ row → row ≤ (eng.get_table db sql).nrow →
        tableGet (st1.heap.getD heap.length []) (LuaValue.number ((row : Int) : LuaNumber)) =
          LuaValue.table (heap.length + 1 + row) ∧
        ∀ c, c < (eng.get_table db sql).ncol →
          tableGet (st1.heap.getD (heap.length + 1 + row) [])
              (LuaValue.number (((c : Int) + 1 : Int) : LuaNumber)) =
            cellValue ((eng.get_table db sql).qres ((eng.get_table db sql).ncol * row + c))) ∧
      (∀ k, tableGet (st1.heap.getD heap.length []) k ≠ LuaValue.nil →
        k = LuaValue.string "columns" ∨
        ∃ row, 1 ≤ row ∧ row ≤ (eng.get_table db sql).nrow ∧
          k = LuaValue.number ((row : Int) : LuaNumber)) ∧
      (∀ row, row ≤ (eng.get_table db sql).nrow →
        ∀ k, tableGet (st1.heap.getD (heap.length + 1 + row) []) k ≠ LuaValue.nil →
          ∃ c, c < (eng.get_table db sql).ncol ∧
            k = LuaValue.number (((c : Int) + 1 : Int) : LuaNumber)) := by
  have hrun := get_table_ok rt eng db sql heap trace hok
  generalize eng.get_table db sql = r at hrun ⊢
  -- the two kinds of tables in the final heap
  have hT : (heap ++ [setAll rowKey (fun j => LuaValue.table (heap.length + 1 + j))
      (r.nrow + 1) 0 []] ++ (List.range' 0 (r.nrow + 1)).map (rowTable r)).getD heap.length [] =
      setAll rowKey (fun j => LuaValue.table (heap.length + 1 + j)) (r.nrow + 1) 0 [] := by
    simp only [List.getD_eq_getElem?_getD, List.append_assoc, List.singleton_append]
    rw [List.getElem?_append_right (le_refl _)]
    simp
  have hR : ∀ row, row ≤ r.nrow →
      (heap ++ [setAll rowKey (fun j => LuaValue.table (heap.length + 1 + j))
        (r.nrow + 1) 0 []] ++ (List.range' 0 (r.nrow + 1)).map (rowTable r)).getD
          (heap.length + 1 + row) [] = rowTable r row := by
    intro row hrow
    have hlt : row < r.nrow + 1 := by omega
    have hsub : heap.length + 1 + row - heap.length = row + 1 := by omega
    simp only [List.getD_eq_getElem?_getD, List.append_assoc, List.singleton_append]
    rw [List.getElem?_append_right (by omega), hsub]
    simp [List.getElem?_range', hlt]
  have hkey : ∀ row, row ≤ r.nrow →
      tableGet (setAll rowKey (fun j => LuaValue.table (heap.length + 1 + j)) (r.nrow + 1) 0 [])
        (rowKey row) = LuaValue.table (heap.length + 1 + row) :=
    fun row hrow => tableGet_setAll_key rowKey _ rowKey_injective (r.nrow + 1) 0 [] row
      (Nat.zero_le _) (by omega)
  have hcell : ∀ row c, c < r.ncol →
      tableGet (rowTable r row) (cellKey c) = cellValue (r.qres (r.ncol * row + c)) :=
    fun row c hc => tableGet_setAll_key cellKey _ cellKey_injective r.ncol 0 [] c
      (Nat.zero_le _) (by omega)
  refine ⟨_, call_returns _ _ _ 2 [LuaValue.string "ok", LuaValue.table heap.length] []
    hrun rfl rfl, rfl, ?_, ?_, ?_, ?_, ?_⟩
  · show tableGet (List.getD _ heap.length []) (rowKey 0) = LuaValue.table (heap.length + 1 + 0)
    rw [hT]
    exact hkey 0 (Nat.zero_le _)
  · intro c hc
    have := hR 0 (Nat.zero_le _)
    simp only [Nat.add_zero] at this
    show tableGet (List.getD _ (heap.length + 1) []) (cellKey c) = _
    rw [this, hcell 0 c hc]
    simp
  · intro row h1 hrow
    have hk : rowKey row = LuaValue.number ((row : Int) : LuaNumber) := by
      have : row ≠ 0 := by omega
      simp [rowKey, this]
    constructor
    · show tableGet (List.getD _ heap.length []) _ = _
      rw [hT, ← hk]
      exact hkey row hrow
    · intro c hc
      show tableGet (List.getD _ (heap.length + 1 + row) []) (cellKey c) = _
      rw [hR row hrow, hcell row c hc]
  · intro k hk
    have hk1 : tableGet (setAll rowKey (fun j => LuaValue.table (heap.length + 1 + j))
        (r.nrow + 1) 0 []) k ≠ LuaValue.nil := by
      rw [← hT]; exact hk
    by_contra hcon
    apply hk1
    rw [tableGet_setAll_other rowKey _ k (r.nrow + 1) 0 []]
    · rfl
    · intro j _ hj heq
      apply hcon
      by_cases h0 : j = 0
      · left; rw [← heq]; simp [rowKey, h0]
      · right; exact ⟨j, by omega, by omega, by rw [← heq]; simp [rowKey, h0]⟩
  · intro row hrow k hk
    have hk1 : tableGet (rowTable r row) k ≠ LuaValue.nil := by
      rw [← hR row hrow]; exact hk
    by_contra hcon
    apply hk1
    unfold rowTable
    rw [tableGet_setAll_other cellKey _ k r.ncol 0 []]
    · rfl
    · intro j _ hj heq
      exact hcon ⟨j, by omega, by rw [← heq]; rfl⟩

/-- A concrete run: the header `a`, `b` and the data row `1`, NULL. -/
theorem get_table_structure_witness :
    (demoTableEngine.get_table 0 "SELECT a, b FROM t").res = SQLITE_OK ∧
    (call (get_table refRuntime demoTableEngine)
        (enter [LuaValue.userdata UKind.db 0, LuaValue.string "SELECT a, b FROM t"] [] [])).results =
      some [LuaValue.string "ok", LuaValue.table 0] ∧
    (call (get_table refRuntime demoTableEngine)
        (enter [LuaValue.userdata UKind.db 0, LuaValue.string "SELECT a, b FROM t"] []
          [])).state.heap =
      [[(LuaValue.string "columns", LuaValue.table 1), (LuaValue.number 1, LuaValue.table 2)],
       [(LuaValue.number 1, LuaValue.string "a"), (LuaValue.number 2, LuaValue.string "b")],
       [(LuaValue.number 1, LuaValue.string "1")]] := by
  obtain ⟨st1, h1, _⟩ := get_table_structure refRuntime demoTableEngine 0 "SELECT a, b FROM t"
    [] [] (by decide)
  refine ⟨by decide, ?_, by decide⟩
  rw [h1]
  rfl

/-! ### Round trip of `bind` and `columns` -/

/-- The call `s:bind(k, v)` with a number as the key and a bindable value. -/
theorem bind_number_key (rt : Runtime) (eng : Engine) (s : Nat) (k : LuaNumber) (v : LuaValue)
    (heap : List LuaTable) (trace : List EngineCall) (c : EngineCall)
    (hc : scalarBind rt s (doubleToInt k) v = some c) :
    bind rt eng (enter [LuaValue.userdata UKind.stmt s, LuaValue.number k, v] heap trace) =
      Except.ok (1,
        { stack := [LuaValue.string (resName (eng.bind_result c)), v, LuaValue.number k,
            LuaValue.userdata UKind.stmt s],
          heap := heap, trace := trace ++ [c] }) := by
  have h1 := index2value_first [v, LuaValue.number k] (LuaValue.userdata UKind.stmt s) heap trace
  have h2 := index2value_second [v] (LuaValue.number k) (LuaValue.userdata UKind.stmt s)
    heap trace
  simp only [List.cons_append, List.nil_append] at h1 h2
  simp [bind, enter, check_stmt, h1, lua_type, h2, typeOf, param_idx, lua_isnumber, tonumber,
    lua_tonumber, bind_dtype_scalar, hc]

/-- The statement after `s:bind(k, v)`. -/
theorem bindOne_number_key (rt : Runtime) (cv : Conv) (m : StmtModel) (k : LuaNumber)
    (v : LuaValue) (c : EngineCall) (hc : scalarBind rt 0 (doubleToInt k) v = some c) :
    bindOne rt cv m (LuaValue.number k) v = m.apply c := by
  simp [bindOne, call, bind_number_key rt (refEngine cv m) 0 k v [] [] c hc, Outcome.state]

/-- Whatever the engine answers, every value the loop of `columns` pushes is a
number or a string. -/
theorem columns_loop_pushes (eng : Engine) (s limit : Nat) :
    ∀ (cs : List Char) (i : Nat) (st st1 : LuaState),
      columns_loop eng s limit cs i st = Except.ok st1 →
      ∃ vals, st1.stack = vals ++ st.stack ∧ vals.length = cs.length ∧
        ∀ v ∈ vals, v ≠ LuaValue.nil := by
  intro cs
  induction cs with
  | nil =>
    intro i st st1 h
    simp only [columns_loop, Except.ok.injEq] at h
    exact ⟨[], by simp [h], rfl, by simp⟩
  | cons c cs ih =>
    intro i st st1 h
    have key : ∀ (v : LuaValue) (st2 : LuaState), v ≠ LuaValue.nil →
        st2.stack = v :: st.stack →
        (match withinFrame limit st2 with
          | Except.error e => Except.error e
          | Except.ok st3 => columns_loop eng s limit cs (i + 1) st3) = Except.ok st1 →
        ∃ vals, st1.stack = vals ++ st.stack ∧ vals.length = (c :: cs).length ∧
          ∀ w ∈ vals, w ≠ LuaValue.nil := by
      intro v st2 hv hst h2
      unfold withinFrame at h2
      by_cases hfit : st2.stack.length ≤ limit
      · rw [if_pos hfit] at h2
        obtain ⟨vals, h3, h4, h5⟩ := ih (i + 1) st2 st1 h2
        refine ⟨vals ++ [v], by simp [h3, hst], by simp [h4], ?_⟩
        intro w hw
        rcases List.mem_append.mp hw with h6 | h6
        · exact h5 w h6
        · simp only [List.mem_singleton] at h6
          rw [h6]; exact hv
      · rw [if_neg hfit] at h2
        simp at h2
    rw [columns_loop] at h
    by_cases h1 : c = 'i'
    · rw [if_pos h1] at h
      exact key _ _ (by simp) rfl h
    rw [if_neg h1] at h
    by_cases h2 : c = 'f'
    · rw [if_pos h2] at h
      exact key _ _ (by simp) rfl h
    rw [if_neg h2] at h
    by_cases h3 : c = 't'
    · rw [if_pos h3] at h
      exact key _ _ (by simp) rfl h
    rw [if_neg h3] at h
    by_cases h4 : c = 'b'
    · rw [if_pos h4] at h
      exact key _ _ (by simp) rfl h
    rw [if_neg h4] at h
    simp [lua_error] at h

/-- No call of `columns` returns `nil` among its results. -/
theorem columns_never_nil (rt : Runtime) (eng : Engine) (s : Nat) (tags : String)
    (heap : List LuaTable) (trace : List EngineCall) (rs : List LuaValue) (st1 : LuaState)
    (h : call (columns rt eng)
      (enter [LuaValue.userdata UKind.stmt s, LuaValue.string tags] heap trace) =
        Outcome.returned rs st1) : LuaValue.nil ∉ rs := by
  rw [call, columns_entry] at h
  by_cases hne : (tags.length : Int) ≠ eng.column_count s
  · simp [hne] at h
  · rw [if_neg hne] at h
    cases hl : columns_loop eng s (2 + LUA_MINSTACK) tags.data 0
        { stack := [LuaValue.string tags, LuaValue.userdata UKind.stmt s], heap := heap,
          trace := trace ++ [EngineCall.column_count s] } with
    | error e =>
      obtain ⟨r, st2⟩ := e
      cases r <;> simp [hl] at h
    | ok st3 =>
      obtain ⟨vals, h3, h4, h5⟩ := columns_loop_pushes eng s _ _ _ _ _ hl
      have hlen : tags.data.length = tags.length := rfl
      simp only [hl, h3] at h
      have h6 : (0 : Int) ≤ (tags.length : Int) ∧
          (tags.length : Int) ≤ ((vals ++ [LuaValue.string tags,
            LuaValue.userdata UKind.stmt s]).length : Int) := by
        constructor
        · omega
        · simp only [List.length_append, List.length_cons, List.length_nil]; omega
      rw [if_pos h6] at h
      simp only [Outcome.returned.injEq] at h
      intro hmem
      rw [← h.1] at hmem
      have htake : (vals ++ [LuaValue.string tags, LuaValue.userdata UKind.stmt s]).take
          ((tags.length : Int).toNat) = vals := by
        have : ((tags.length : Int).toNat) = vals.length := by simp [h4, hlen]
        rw [this]
        exact List.take_left' rfl
      rw [htake] at hmem
      exact h5 _ (List.mem_reverse.mp hmem) rfl

/-- The results of `columns` on valid tags of the right length that fit the
frame. -/
theorem columns_valid_results (rt : Runtime) (eng : Engine) (s : Nat) (tags : String)
    (heap : List LuaTable) (trace : List EngineCall)
    (hlen : eng.column_count s = (tags.length : Int)) (hcap : tags.length ≤ LUA_MINSTACK)
    (hv : ∀ c ∈ tags.data, c ∈ columnTags) :
    (call (columns rt eng)
        (enter [LuaValue.userdata UKind.stmt s, LuaValue.string tags] heap trace)).results =
      some (tags.data.enum.map (fun p => columnValue eng s p.1 p.2)) := by
  rw [columns_valid_run rt eng s tags heap trace hlen hcap hv]
  rfl

theorem string_take_all (t : String) : String.mk (t.data.take t.length) = t := by
  have h : t.data.take t.length = t.data := List.take_length _
  rw [h]

theorem toCInt_of_range (n : Int) (h : -2147483648 ≤ n ∧ n ≤ 2147483647) : toCInt n = n := by
  unfold toCInt
  omega

theorem clamp64_of_range (n : Int) (h : -2147483648 ≤ n ∧ n ≤ 2147483647) : clamp64 n = n := by
  unfold clamp64
  have h1 : ¬ n < -9223372036854775808 := by omega
  have h2 : ¬ 9223372036854775807 < n := by omega
  rw [if_neg h1, if_neg h2]

theorem doubleToInt_intCast (n : Int) : doubleToInt (n : LuaNumber) = n := by
  show doubleToInt (LuaNumber.finite (n : Rat)) = n
  simp [doubleToInt, Int.tdiv_one]

theorem realToInt64_intCast (n : Int) : realToInt64 (n : LuaNumber) = clamp64 n := by
  show realToInt64 (LuaNumber.finite (n : Rat)) = clamp64 n
  simp [realToInt64, Int.tdiv_one]

theorem intCast_ne_nan (n : Int) : ((n : Int) : LuaNumber) ≠ LuaNumber.nan := by
  show LuaNumber.finite (n : Rat) ≠ LuaNumber.nan
  simp

theorem intCast_zero : ((0 : Int) : LuaNumber) = 0 := by decide

/-- Four nulls bound to `SELECT ?, ?, ?, ?` and read back with the tags `iftb`. -/
theorem round_trip_nulls (rt : Runtime) (cv : Conv) :
    (roundTrip rt cv LuaValue.nil LuaValue.nil LuaValue.nil LuaValue.nil "iftb").results =
      some [LuaValue.number 0, LuaValue.number 0, LuaValue.string "", LuaValue.string ""] := by
  have hk1 : doubleToInt (1 : LuaNumber) = 1 := by decide
  have hk2 : doubleToInt (2 : LuaNumber) = 2 := by decide
  have hk3 : doubleToInt (3 : LuaNumber) = 3 := by decide
  have hk4 : doubleToInt (4 : LuaNumber) = 4 := by decide
  have htags : ∀ c ∈ ("iftb" : String).data, c ∈ columnTags := by decide
  have e1 : ∀ m, bindOne rt cv m (LuaValue.number 1) LuaValue.nil =
      m.apply (EngineCall.bind_null 0 1) :=
    fun m => bindOne_number_key rt cv m 1 _ _ (by simp [scalarBind, hk1])
  have e2 : ∀ m, bindOne rt cv m (LuaValue.number 2) LuaValue.nil =
      m.apply (EngineCall.bind_null 0 2) :=
    fun m => bindOne_number_key rt cv m 2 _ _ (by simp [scalarBind, hk2])
  have e3 : ∀ m, bindOne rt cv m (LuaValue.number 3) LuaValue.nil =
      m.apply (EngineCall.bind_null 0 3) :=
    fun m => bindOne_number_key rt cv m 3 _ _ (by simp [scalarBind, hk3])
  have e4 : ∀ m, bindOne rt cv m (LuaValue.number 4) LuaValue.nil =
      m.apply (EngineCall.bind_null 0 4) :=
    fun m => bindOne_number_key rt cv m 4 _ _ (by simp [scalarBind, hk4])
  simp only [roundTrip, e1, e2, e3, e4]
  rw [columns_valid_results rt _ 0 "iftb" [] [] (by rfl) (by decide) htags]
  simp [List.enum, List.enumFrom, columnValue, refEngine, StmtModel.step, StmtModel.apply,
    StmtModel.store, StmtModel.fresh, Cell.toInt, Cell.toDouble, Cell.toText, Cell.bytes,
    readBytes, intCast_zero]

/-- An integer within the range of the C `int`, a floating value other than NaN
and two texts bound to `SELECT ?, ?, ?, ?` are read back with the tags `iftb` as
they were bound. -/
theorem round_trip_values (rt : Runtime) (cv : Conv) (n : Int) (x : LuaNumber)
    (t1 t2 : String) (hn : -2147483648 ≤ n ∧ n ≤ 2147483647) (hx : x ≠ LuaNumber.nan) :
    (roundTrip rt cv (LuaValue.number (n : LuaNumber)) (LuaValue.number x) (LuaValue.string t1)
        (LuaValue.string t2) "iftb").results =
      some [LuaValue.number (n : LuaNumber), LuaValue.number x, LuaValue.string t1,
        LuaValue.string t2] := by
  have hk1 : doubleToInt (1 : LuaNumber) = 1 := by decide
  have hk2 : doubleToInt (2 : LuaNumber) = 2 := by decide
  have hk3 : doubleToInt (3 : LuaNumber) = 3 := by decide
  have hk4 : doubleToInt (4 : LuaNumber) = 4 := by decide
  have htags : ∀ c ∈ ("iftb" : String).data, c ∈ columnTags := by decide
  have e1 : ∀ m, bindOne rt cv m (LuaValue.number 1) (LuaValue.number (n : LuaNumber)) =
      m.apply (EngineCall.bind_double 0 1 (n : LuaNumber)) :=
    fun m => bindOne_number_key rt cv m 1 _ _ (by simp [scalarBind, hk1])
  have e2 : ∀ m, bindOne rt cv m (LuaValue.number 2) (LuaValue.number x) =
      m.apply (EngineCall.bind_double 0 2 x) :=
    fun m => bindOne_number_key rt cv m 2 _ _ (by simp [scalarBind, hk2])
  have e3 : ∀ m, bindOne rt cv m (LuaValue.number 3) (LuaValue.string t1) =
      m.apply (EngineCall.bind_text 0 3 t1 t1.length SQLITE_TRANSIENT) :=
    fun m => bindOne_number_key rt cv m 3 _ _ (by simp [scalarBind, hk3])
  have e4 : ∀ m, bindOne rt cv m (LuaValue.number 4) (LuaValue.string t2) =
      m.apply (EngineCall.bind_text 0 4 t2 t2.length SQLITE_TRANSIENT) :=
    fun m => bindOne_number_key rt cv m 4 _ _ (by simp [scalarBind, hk4])
  simp only [roundTrip, e1, e2, e3, e4]
  have hcount : (refEngine cv
      (((((StmtModel.fresh ["", "", "", ""]).apply
        (EngineCall.bind_double 0 1 (n : LuaNumber))).apply
        (EngineCall.bind_double 0 2 x)).apply
        (EngineCall.bind_text 0 3 t1 t1.length SQLITE_TRANSIENT)).apply
        (EngineCall.bind_text 0 4 t2 t2.length SQLITE_TRANSIENT)).step).column_count 0 =
      (("iftb" : String).length : Int) := by
    simp [refEngine, StmtModel.step, StmtModel.apply, StmtModel.store, StmtModel.fresh, hx,
      intCast_ne_nan]
    rfl
  rw [columns_valid_results rt _ 0 "iftb" [] [] hcount (by decide) htags]
  simp [List.enum, List.enumFrom, columnValue, refEngine, StmtModel.step, StmtModel.apply,
    StmtModel.store, StmtModel.fresh, Cell.toInt, Cell.toDouble, Cell.toText, Cell.bytes,
    readBytes, string_take_all, realToInt64_intCast, intCast_ne_nan, hx,
    clamp64_of_range n hn, toCInt_of_range n hn]

/-- The engine keeps a bound NaN as NULL: bound to the first parameter, it is read
back under the tag `f` as the number 0. -/
theorem round_trip_nan :
    (roundTrip refRuntime decimalConv (LuaValue.number LuaNumber.nan) (LuaValue.number 2)
        (LuaValue.string "foo") (LuaValue.string "x") "fftb").results =
      some [LuaValue.number 0, LuaValue.number 2, LuaValue.string "foo", LuaValue.string "x"] := by
  decide

/-- C4: `columns` cannot read a null back as the null marker.  Whatever the
engine answers, no value that a call of `columns` returns is `nil`: each tag
pushes an integer, a number or a string.  So four nulls bound with `bind` to the
parameters of `SELECT ?, ?, ?, ?` are read back after a step by `columns("iftb")`
as the number 0 under `i` and `f` and as the empty string under `t` and `b`,
where the claim has the null marker; whereas 42, 1.5, `foo` and `x` are read
back as they were bound. -/
theorem columns_reads_null_as_value :
    (∀ (rt : Runtime) (eng : Engine) (s : Nat) (tags : String) (heap : List LuaTable)
        (trace : List EngineCall) (rs : List LuaValue) (st1 : LuaState),
      call (columns rt eng)
        (enter [LuaValue.userdata UKind.stmt s, LuaValue.string tags] heap trace) =
          Outcome.returned rs st1 → LuaValue.nil ∉ rs) ∧
    (∀ (rt : Runtime) (cv : Conv),
      (roundTrip rt cv LuaValue.nil LuaValue.nil LuaValue.nil LuaValue.nil "iftb").results =
        some [LuaValue.number 0, LuaValue.number 0, LuaValue.string "", LuaValue.string ""]) ∧
    (roundTrip refRuntime decimalConv (LuaValue.number 42) (LuaValue.number oneAndHalf)
        (LuaValue.string "foo") (LuaValue.string "x") "iftb").results =
      some [LuaValue.number 42, LuaValue.number oneAndHalf, LuaValue.string "foo",
        LuaValue.string "x"] :=
  ⟨fun rt eng s tags heap trace rs st1 h => columns_never_nil rt eng s tags heap trace rs st1 h,
    fun rt cv => round_trip_nulls rt cv, by decide⟩

/-- A concrete run: the row `(7, "x")` read with the tags `it` returns two values,
neither of them `nil`; and the four nulls on the reference engine. -/
theorem columns_reads_null_as_value_witness :
    call (columns refRuntime (refEngine decimalConv demoRow))
        (enter [LuaValue.userdata UKind.stmt 0, LuaValue.string "it"] [] []) =
      Outcome.returned [LuaValue.number 7, LuaValue.string "x"]
        { stack := [LuaValue.string "x", LuaValue.number 7, LuaValue.string "it",
            LuaValue.userdata UKind.stmt 0],
          heap := [],
          trace := [EngineCall.column_count 0, EngineCall.column_int 0 0,
            EngineCall.column_bytes 0 1, EngineCall.column_text 0 1] } ∧
    LuaValue.nil ∉ [LuaValue.number 7, LuaValue.string "x"] ∧
    (roundTrip refRuntime decimalConv LuaValue.nil LuaValue.nil LuaValue.nil LuaValue.nil
        "iftb").results =
      some [LuaValue.number 0, LuaValue.number 0, LuaValue.string "", LuaValue.string ""] := by
  have h : call (columns refRuntime (refEngine decimalConv demoRow))
        (enter [LuaValue.userdata UKind.stmt 0, LuaValue.string "it"] [] []) =
      Outcome.returned [LuaValue.number 7, LuaValue.string "x"]
        { stack := [LuaValue.string "x", LuaValue.number 7, LuaValue.string "it",
            LuaValue.userdata UKind.stmt 0],
          heap := [],
          trace := [EngineCall.column_count 0, EngineCall.column_int 0 0,
            EngineCall.column_bytes 0 1, EngineCall.column_text 0 1] } := by decide
  exact ⟨h,
    columns_reads_null_as_value.1 refRuntime (refEngine decimalConv demoRow) 0 "it" [] [] _ _ h,
    columns_reads_null_as_value.2.1 refRuntime decimalConv⟩

/-! ### The life of a connection -/

/-- The engine calls of `get_table` on a connection and a string, whatever the
engine answers. -/
theorem get_table_trace (rt : Runtime) (eng : Engine) (h : Nat) (sql : String)
    (heap : List LuaTable) (trace : List EngineCall) :
    (call (get_table rt eng)
        (enter [LuaValue.userdata UKind.db h, LuaValue.string sql] heap trace)).state.trace =
      trace ++ [EngineCall.get_table h sql, EngineCall.free_table] := by
  by_cases hok : (eng.get_table h sql).res = SQLITE_OK
  · rw [call_returns _ _ _ 2 [LuaValue.string "ok", LuaValue.table heap.length] []
      (get_table_ok rt eng h sql heap trace hok) rfl rfl]
    rfl
  · have h1 := index2value_first [LuaValue.string sql] (LuaValue.userdata UKind.db h) heap trace
    have h2 := index2value_second [] (LuaValue.string sql) (LuaValue.userdata UKind.db h)
      heap trace
    simp only [List.nil_append, List.singleton_append] at h1 h2
    cases he : (eng.get_table h sql).err <;>
      simp [call, get_table, enter, check_db, h1, luaL_checklstring, h2, lua_pop, engineCall,
        hok, lua_error, Outcome.state, lua_pushstring, push, he]

/-- The engine calls of one wrapper call on a connection. -/
theorem runOp_trace (rt : Runtime) (eng : Engine) (se : Sessions) (h : Nat)
    (heap : List LuaTable) (trace : List EngineCall) (op : DbOp) :
    (runOp rt eng se h heap trace op).state.trace = trace ++ opCalls h op := by
  have h1 := index2value_first [] (LuaValue.userdata UKind.db h) heap trace
  simp only [List.nil_append] at h1
  cases op with
  | close =>
    simp [runOp, call, close, enter, check_db, h1, pushres, lua_pushstring, push, engineCall,
      Outcome.state, opCalls]
  | errcode =>
    simp [runOp, call, errcode, enter, check_db, h1, lua_pushinteger, push, engineCall,
      Outcome.state, opCalls]
  | errmsg =>
    cases hm : se.errmsg h <;>
      simp [runOp, call, errmsg, enter, check_db, h1, lua_pushstring, push, engineCall,
        Outcome.state, opCalls, hm]
  | get_table sql => simpa [runOp, opCalls] using get_table_trace rt eng h sql heap trace

/-- The engine calls of a sequence of wrapper calls on a connection. -/
theorem runOps_trace (rt : Runtime) (eng : Engine) (se : Sessions) (h : Nat) :
    ∀ (ops : List DbOp) (heap : List LuaTable) (trace : List EngineCall),
      (runOps rt eng se h ops heap trace).2 = trace ++ (ops.map (opCalls h)).flatten := by
  intro ops
  induction ops with
  | nil => intro heap trace; simp [runOps]
  | cons op ops ih =>
    intro heap trace
    rw [runOps, ih, runOp_trace]
    simp

/-- The handler `db_gc` closes the session of the connection once more. -/
theorem db_gc_trace (h : Nat) (heap : List LuaTable) (trace : List EngineCall) :
    (call db_gc (enter [LuaValue.userdata UKind.db h] heap trace)).state.trace =
      trace ++ [EngineCall.sqlite3_close h] := by
  have h1 := index2value_first [] (LuaValue.userdata UKind.db h) heap trace
  simp only [List.nil_append] at h1
  simp [call, db_gc, enter, check_db, h1, engineCall, Outcome.state]

theorem opCalls_count_close (h : Nat) :
    ∀ ops : List DbOp, ((ops.map (opCalls h)).flatten).count (EngineCall.sqlite3_close h) =
      ops.count DbOp.close := by
  intro ops
  induction ops with
  | nil => rfl
  | cons op ops ih =>
    cases op <;> simp [opCalls, List.count_cons, ih]

/-- C11 (failing input): over the life of a connection with the handle `h` (any
sequence of `close`, `errcode`, `errmsg` and `get_table` calls, then the `__gc`
handler) the engine's `sqlite3_close` is invoked on `h` once by `__gc` and once
more by every explicit `close`: neither function records that the session is
closed.  `open()` followed by `__gc` closes the session once; `open()`,
`db:close()` and `__gc` close the same session twice. -/
theorem close_then_gc_closes_twice :
    (∀ (rt : Runtime) (eng : Engine) (se : Sessions) (h : Nat) (ops : List DbOp)
        (heap : List LuaTable) (trace : List EngineCall),
      (lifetime rt eng se h ops heap trace).count (EngineCall.sqlite3_close h) =
        trace.count (EngineCall.sqlite3_close h) + ops.count DbOp.close + 1) ∧
    call (db_open refRuntime demoSessions) (enter [] [] []) =
      Outcome.returned [LuaValue.userdata UKind.db 7]
        { stack := [LuaValue.userdata UKind.db 7], heap := [],
          trace := [EngineCall.sqlite3_open ":memory:"] } ∧
    lifetime refRuntime demoTableEngine demoSessions 7 [] []
        [EngineCall.sqlite3_open ":memory:"] =
      [EngineCall.sqlite3_open ":memory:", EngineCall.sqlite3_close 7] ∧
    call (close demoSessions)
        (enter [LuaValue.userdata UKind.db 7] [] [EngineCall.sqlite3_open ":memory:"]) =
      Outcome.returned [LuaValue.string "ok"]
        { stack := [LuaValue.string "ok", LuaValue.userdata UKind.db 7], heap := [],
          trace := [EngineCall.sqlite3_open ":memory:", EngineCall.sqlite3_close 7] } ∧
    lifetime refRuntime demoTableEngine demoSessions 7 [DbOp.close] []
        [EngineCall.sqlite3_open ":memory:"] =
      [EngineCall.sqlite3_open ":memory:", EngineCall.sqlite3_close 7,
        EngineCall.sqlite3_close 7] := by
  refine ⟨?_, by decide, by decide, by decide, by decide⟩
  intro rt eng se h ops heap trace
  rw [lifetime, db_gc_trace, runOps_trace, List.count_append, List.count_append,
    opCalls_count_close]
  simp

end LSqlite
